import Mathlib

/-!
Verification development for the Celo transaction normalization/classification
pipeline and the Awaken CSV exporter of the osmosis-awaken-tax repository.

The definitions below are a shallow embedding of the TypeScript source:
  * the Celo fetcher/normalizer/classifier module (`mergeAllTransactions`,
    `convertRegularTransaction`, `convertInternalTransaction`,
    `convertTransferToChainTransaction`, `getTokenMetadata`,
    `parseTransaction`);
  * the CSV exporter (`convertToStandardFormat` in src/app/utils/csvExport.ts).

Modelling conventions:
  * JavaScript strings are `String`; `x || d` on strings is modelled by the
    explicit empty-string test; optional (`?`) fields are `Option`.
  * The module-level `tokenMetadataCache : Map<string, ...>` is modelled as an
    insertion-ordered association list threaded explicitly through every
    function that touches it.
  * `timestamp` fields carry the raw unix-seconds string of the record; the
    source stores `new Date(parseInt(ts) * 1000).toISOString()`, an injective
    rendering of that value for well-formed inputs, so provenance statements
    about timestamps are unaffected.
  * Display-amount rendering (`parseFloat(x) / 10^d` followed by `toFixed`)
    uses IEEE-754 doubles in the source; it is abstracted as an explicit
    function parameter `fmt : String → Int → Nat → String` taking the raw
    string, the power-of-ten exponent and the number of fixed decimals, so
    every data-flow statement is proved for all renderings.
-/

namespace CeloTax

/-- Event attribute (source: interface `Attribute`). -/
structure Attribute where
  key : String
  value : String
deriving Repr, DecidableEq

/-- Transaction event (source: interface `TxEvent`). -/
structure TxEvent where
  type : String
  attributes : List Attribute
deriving Repr, DecidableEq

/-- Log group (source: interface `TxLog`). -/
structure TxLog where
  msg_index : Nat
  log : String
  events : List TxEvent
deriving Repr, DecidableEq

/-- Denomination/amount pair (source: interface `Coin`). -/
structure Coin where
  denom : String
  amount : String
deriving Repr, DecidableEq

/-- Message (source: interface `Message`); only the fields read by the Celo
pipeline are modelled.  `amount` is a `Coin[]` when present; a non-array
`amount` fails the source's `Array.isArray` guard and behaves exactly like an
absent field, so it is folded into `none`. -/
structure Message where
  atType : String
  from_address : Option String
  to_address : Option String
  amount : Option (List Coin)
deriving Repr, DecidableEq

/-- Fee of a transaction (source: the `fee?` object inside `auth_info`). -/
structure TxFee where
  amount : Option (List Coin)
deriving Repr, DecidableEq

/-- Auth info (source: the `auth_info` object of `ChainTransaction.tx`). -/
structure TxAuthInfo where
  fee : Option TxFee
deriving Repr, DecidableEq

/-- Body of a transaction (source: the `body` object of `ChainTransaction.tx`). -/
structure TxBody where
  messages : List Message
  memo : Option String
deriving Repr, DecidableEq

/-- The `tx` object of a `ChainTransaction`. -/
structure TxContent where
  body : TxBody
  auth_info : TxAuthInfo
deriving Repr, DecidableEq

/-- Canonical transaction (source: interface `ChainTransaction`).  The source
field `tx` is named `txc` here (`tx` shadows too easily in proofs); `timestamp`
carries the unix-seconds string as explained in the header comment. -/
structure ChainTransaction where
  hash : String
  height : String
  timestamp : String
  code : Nat
  chain : String
  logs : Option (List TxLog)
  txc : TxContent
deriving Repr, DecidableEq

/-- Classifier output (source: interface `ParsedTransaction`).  The source
field `from` is named `from_` (`from` is a Lean keyword); `timestamp` carries
the canonical record's timestamp string (`new Date(...)` in the source);
the optional `amount2`/`currency2` are total strings, `""` when absent,
matching what the Celo classifier produces. -/
structure ParsedTransaction where
  hash : String
  timestamp : String
  height : Int
  type : String
  from_ : String
  to_ : String
  amount : String
  currency : String
  amount2 : String
  currency2 : String
  fee : String
  feeCurrency : String
  memo : String
  status : String
  chain : String
deriving Repr, DecidableEq

/-- Cached token metadata (source: the value type of `tokenMetadataCache`). -/
structure TokenMetadata where
  symbol : String
  decimals : Int
  name : String
deriving Repr, DecidableEq

/-- Regular transaction record of the Etherscan `txlist` endpoint (source:
interface `EtherscanTransaction`); fields the pipeline never reads are
omitted; `from` is named `from_`. -/
structure EtherscanTransaction where
  blockNumber : String
  timeStamp : String
  hash : String
  from_ : String
  to_ : String
  value : String
  gasPrice : String
  isError : String
  input : String
  gasUsed : String
deriving Repr, DecidableEq

/-- Internal transaction record of the `txlistinternal` endpoint (source:
interface `EtherscanInternalTransaction`). -/
structure EtherscanInternalTransaction where
  blockNumber : String
  timeStamp : String
  hash : String
  from_ : String
  to_ : String
  value : String
  contractAddress : String
  type : String
  traceId : String
  isError : String
  errCode : String
deriving Repr, DecidableEq

/-- ERC20 transfer record of the `tokentx` endpoint (source: interface
`EtherscanTokenTransfer`). -/
structure EtherscanTokenTransfer where
  blockNumber : String
  timeStamp : String
  hash : String
  from_ : String
  contractAddress : String
  to_ : String
  value : String
  tokenName : String
  tokenSymbol : String
  tokenDecimal : String
deriving Repr, DecidableEq

/-- ERC721 transfer record of the `tokennfttx` endpoint (source: interface
`EtherscanNFTTransfer`). -/
structure EtherscanNFTTransfer where
  blockNumber : String
  timeStamp : String
  hash : String
  from_ : String
  contractAddress : String
  to_ : String
  tokenID : String
  tokenName : String
  tokenSymbol : String
  tokenDecimal : String
deriving Repr, DecidableEq

/-- ERC1155 transfer record of the `token1155tx` endpoint (source: interface
`EtherscanERC1155Transfer`). -/
structure EtherscanERC1155Transfer where
  blockNumber : String
  timeStamp : String
  hash : String
  from_ : String
  contractAddress : String
  to_ : String
  tokenID : String
  tokenValue : String
  tokenName : String
  tokenSymbol : String
  tokenDecimal : String
deriving Repr, DecidableEq

/-- Per-hash bucket of transfer records (source: interface `TransferGroup`). -/
structure TransferGroup where
  erc20 : List EtherscanTokenTransfer
  nft : List EtherscanNFTTransfer
  erc1155 : List EtherscanERC1155Transfer
deriving Repr, DecidableEq

def emptyGroup : TransferGroup := ⟨[], [], []⟩

/-! JavaScript primitive helpers. -/

/-- Lowercasing as JavaScript `toLowerCase()` behaves on the ASCII strings this
pipeline handles (implemented on the character list so that proofs can
evaluate it). -/
def jsToLower (s : String) : String := ⟨s.data.map Char.toLower⟩

/-- JavaScript `s.slice(0, n)` (implemented on the character list so that
proofs can evaluate it). -/
def jsSlice (s : String) (n : Nat) : String := ⟨s.data.take n⟩

def digitVal (c : Char) : Option Nat :=
  if c.isDigit then some (c.toNat - 48) else none

def hexDigitVal (c : Char) : Option Nat :=
  if c.isDigit then some (c.toNat - 48)
  else if 'a' ≤ c ∧ c ≤ 'f' then some (c.toNat - 87)
  else if 'A' ≤ c ∧ c ≤ 'F' then some (c.toNat - 55)
  else none

/-- Accumulate the longest digit run at the head of `cs`; `none` when there is
no digit at all (JavaScript `parseInt` returning `NaN`). -/
def parseDigits (dv : Char → Option Nat) (base : Nat) : List Char → Option Nat → Option Nat
  | [], acc => acc
  | c :: rest, acc =>
    match dv c with
    | some d => parseDigits dv base rest (some ((acc.getD 0) * base + d))
    | none => acc

def isJsSpace (c : Char) : Bool :=
  c = ' ' || c = '\t' || c = '\n' || c = '\r'

/-- JavaScript `parseInt(s)` with no radix argument: skip leading whitespace,
optional sign, `0x`/`0X` switches to hexadecimal, longest digit run, `none`
for `NaN`. -/
def jsParseInt (s : String) : Option Int :=
  let cs := s.data.dropWhile isJsSpace
  let core : List Char → Option Nat := fun l =>
    match l with
    | '0' :: 'x' :: r => parseDigits hexDigitVal 16 r none
    | '0' :: 'X' :: r => parseDigits hexDigitVal 16 r none
    | r => parseDigits digitVal 10 r none
  match cs with
  | '-' :: rest => (core rest).map (fun n => -(n : Int))
  | '+' :: rest => (core rest).map (fun n => (n : Int))
  | rest => (core rest).map (fun n => (n : Int))

/-- JavaScript `parseInt(s, 10)`: decimal only. -/
def jsParseIntRadix10 (s : String) : Option Int :=
  let cs := s.data.dropWhile isJsSpace
  match cs with
  | '-' :: rest => (parseDigits digitVal 10 rest none).map (fun n => -(n : Int))
  | '+' :: rest => (parseDigits digitVal 10 rest none).map (fun n => (n : Int))
  | rest => (parseDigits digitVal 10 rest none).map (fun n => (n : Int))

/-- JavaScript `parseInt(s) || 18` (NaN and 0 both fall back to 18). -/
def jsParseIntOr18 (s : String) : Int :=
  match jsParseInt s with
  | none => 18
  | some 0 => 18
  | some n => n

/-- JavaScript `BigInt(s || 0)` restricted to the digit strings the Etherscan
API returns (the source throws on anything else; no claim touches the fee
value, so unparsable strings are folded to 0). -/
def jsBigIntD (s : String) : Nat :=
  if s = "" then 0 else (s.toNat?).getD 0

def strContainsAux (s sub : List Char) : Bool :=
  match s with
  | [] => sub.isEmpty
  | _ :: t => sub.isPrefixOf s || strContainsAux t sub

/-- JavaScript `s.includes(sub)`. -/
def jsIncludes (s sub : String) : Bool := strContainsAux s.data sub.data

/-! Token metadata cache (source: the module-level `tokenMetadataCache`
`Map<string, {symbol, decimals, name}>`), as an insertion-ordered association
list. -/

abbrev Cache := List (String × TokenMetadata)

/-- JavaScript `Map.get`: first (and in our use only) binding of the key. -/
def mapLookup (c : Cache) (k : String) : Option TokenMetadata :=
  match c with
  | [] => none
  | (k1, v) :: rest => if k1 = k then some v else mapLookup rest k

/-- JavaScript `Map.set`: update the existing binding in place, else append. -/
def mapSet (c : Cache) (k : String) (v : TokenMetadata) : Cache :=
  match c with
  | [] => [(k, v)]
  | (k1, v1) :: rest => if k1 = k then (k1, v) :: rest else (k1, v1) :: mapSet rest k v

/-- Hardcoded Celo token table (source: `CELO_TOKEN_MAP`), with its keys
exactly as written in the source — mixed case. -/
def CELO_TOKEN_MAP : List (String × String) :=
  [("0x765DE816845861e75A25fCA122bb6898B8B1282a", "cUSD"),
   ("0xD8763CBa276a3738E6DE85b4b3bF5FDed6D6cA73", "cEUR"),
   ("0xe8537a3d056BA44681E743195C4bC1a6a8F4b93C", "cREAL"),
   ("0x471EcE3750Da237f93B8E339c536989b8978a438", "CELO")]

/-- JavaScript property access `CELO_TOKEN_MAP[address]` (case-sensitive). -/
def celoTokenMapGet (k : String) : Option String :=
  (CELO_TOKEN_MAP.find? (fun p => p.1 = k)).map (fun p => p.2)

/-- Source `getTokenMetadata`: resolve metadata for a contract address with
caching; the cache is threaded explicitly. -/
def getTokenMetadata (cache : Cache) (contractAddress apiSymbol apiName apiDecimals : String) :
    TokenMetadata × Cache :=
  let address := jsToLower contractAddress
  match mapLookup cache address with
  | some m => (m, cache)
  | none =>
    match celoTokenMapGet address with
    | some sym =>
      let metadata : TokenMetadata :=
        { symbol := sym
          decimals := jsParseIntOr18 apiDecimals
          name := if apiName = "" then sym else apiName }
      (metadata, mapSet cache address metadata)
    | none =>
      let symbol := if apiSymbol ≠ "" ∧ apiSymbol ≠ "null" then apiSymbol else jsSlice address 10
      let metadata : TokenMetadata :=
        { symbol := symbol
          decimals := jsParseIntOr18 apiDecimals
          name := if apiName = "" then symbol else apiName }
      (metadata, mapSet cache address metadata)

/-! Building structured token events from transfer records (the bodies of the
`forEach` loops shared by `convertRegularTransaction` and
`convertTransferToChainTransaction`). -/

def erc20TransferEvent (metadata : TokenMetadata) (t : EtherscanTokenTransfer) : TxEvent :=
  { type := "token_transfer"
    attributes :=
      [⟨"sender_address", t.contractAddress⟩,
       ⟨"token_symbol", metadata.symbol⟩,
       ⟨"token_name", metadata.name⟩,
       ⟨"decimals", toString metadata.decimals⟩,
       ⟨"value", t.value⟩,
       ⟨"from", t.from_⟩,
       ⟨"to", t.to_⟩,
       ⟨"token_type", "ERC20"⟩] }

def nftTransferEvent (metadata : TokenMetadata) (t : EtherscanNFTTransfer) : TxEvent :=
  { type := "nft_transfer"
    attributes :=
      [⟨"sender_address", t.contractAddress⟩,
       ⟨"token_symbol", metadata.symbol⟩,
       ⟨"token_name", metadata.name⟩,
       ⟨"token_id", t.tokenID⟩,
       ⟨"from", t.from_⟩,
       ⟨"to", t.to_⟩,
       ⟨"token_type", "ERC721"⟩] }

def erc1155TransferEvent (metadata : TokenMetadata) (t : EtherscanERC1155Transfer) : TxEvent :=
  { type := "erc1155_transfer"
    attributes :=
      [⟨"sender_address", t.contractAddress⟩,
       ⟨"token_symbol", metadata.symbol⟩,
       ⟨"token_name", metadata.name⟩,
       ⟨"decimals", toString metadata.decimals⟩,
       ⟨"value", t.tokenValue⟩,
       ⟨"token_id", t.tokenID⟩,
       ⟨"from", t.from_⟩,
       ⟨"to", t.to_⟩,
       ⟨"token_type", "ERC1155"⟩] }

def buildErc20Events (c : Cache) : List EtherscanTokenTransfer → List TxEvent × Cache
  | [] => ([], c)
  | t :: rest =>
    let r1 := getTokenMetadata c t.contractAddress t.tokenSymbol t.tokenName t.tokenDecimal
    let r2 := buildErc20Events r1.2 rest
    (erc20TransferEvent r1.1 t :: r2.1, r2.2)

/-- NFT transfers resolve metadata with `apiDecimals = "0"` in the source. -/
def buildNftEvents (c : Cache) : List EtherscanNFTTransfer → List TxEvent × Cache
  | [] => ([], c)
  | t :: rest =>
    let r1 := getTokenMetadata c t.contractAddress t.tokenSymbol t.tokenName "0"
    let r2 := buildNftEvents r1.2 rest
    (nftTransferEvent r1.1 t :: r2.1, r2.2)

def buildErc1155Events (c : Cache) : List EtherscanERC1155Transfer → List TxEvent × Cache
  | [] => ([], c)
  | t :: rest =>
    let r1 := getTokenMetadata c t.contractAddress t.tokenSymbol t.tokenName t.tokenDecimal
    let r2 := buildErc1155Events r1.2 rest
    (erc1155TransferEvent r1.1 t :: r2.1, r2.2)

/-- All token events of a transfer bucket, in the source's order: ERC20 events,
then NFT events, then ERC1155 events. -/
def buildTokenEvents (c : Cache) (g : TransferGroup) : List TxEvent × Cache :=
  let r20 := buildErc20Events c g.erc20
  let rn := buildNftEvents r20.2 g.nft
  let r15 := buildErc1155Events rn.2 g.erc1155
  (r20.1 ++ rn.1 ++ r15.1, r15.2)

def zeroAddress : String := "0x0000000000000000000000000000000000000000"

def msgSendType : String := "/cosmos.bank.v1beta1.MsgSend"

/-- Source `convertRegularTransaction`. -/
def convertRegularTransaction (c : Cache) (tx : EtherscanTransaction)
    (transfers : Option TransferGroup) : ChainTransaction × Cache :=
  let fee := toString (jsBigIntD tx.gasUsed * jsBigIntD tx.gasPrice)
  let r := match transfers with
    | some g => buildTokenEvents c g
    | none => ([], c)
  ({ hash := tx.hash
     height := tx.blockNumber
     timestamp := tx.timeStamp
     code := if tx.isError = "1" then 1 else 0
     chain := "celo"
     logs := if r.1.length > 0 then
         some [{ msg_index := 0, log := "Token transfers", events := r.1 }]
       else none
     txc :=
       { body :=
           { messages :=
               [{ atType := msgSendType
                  from_address := some tx.from_
                  to_address := some (if tx.to_ = "" then zeroAddress else tx.to_)
                  amount := some [{ denom := "wei", amount := tx.value }] }]
             memo := some (if tx.input ≠ "" ∧ tx.input ≠ "0x" then
                 "Input: " ++ jsSlice tx.input 30 ++ "..."
               else "") }
         auth_info := { fee := some { amount := some [{ denom := "wei", amount := fee }] } } } },
   r.2)

/-- Source `convertInternalTransaction`. -/
def convertInternalTransaction (tx : EtherscanInternalTransaction) : ChainTransaction :=
  { hash := tx.hash
    height := tx.blockNumber
    timestamp := tx.timeStamp
    code := if tx.isError = "1" then 1 else 0
    chain := "celo"
    logs := some [{ msg_index := 0, log := "Internal transaction"
                    events := [{ type := "internal_transaction"
                                 attributes :=
                                   [⟨"type", if tx.type = "" then "call" else tx.type⟩,
                                    ⟨"trace_id", if tx.traceId = "" then "0" else tx.traceId⟩,
                                    ⟨"contract_address", tx.contractAddress⟩,
                                    ⟨"err_code", tx.errCode⟩] }] }]
    txc :=
      { body :=
          { messages :=
              [{ atType := msgSendType
                 from_address := some tx.from_
                 to_address := some (if tx.to_ = "" then zeroAddress else tx.to_)
                 amount := some [{ denom := "wei", amount := tx.value }] }]
            memo := some ("Internal transaction: " ++ (if tx.type = "" then "call" else tx.type)) }
        auth_info := { fee := some { amount := some [] } } } }

/-- Block number and timestamp of the representative transfer of an orphaned
bucket.  The source picks `transfers.erc20[0] || transfers.nft[0] ||
transfers.erc1155[0]` and reads only `blockNumber` and `timeStamp` off it
(through an `as any` cast), so only those two fields are extracted here. -/
structure RepInfo where
  blockNumber : String
  timeStamp : String
deriving Repr, DecidableEq

def repOf (g : TransferGroup) : Option RepInfo :=
  match g.erc20 with
  | t :: _ => some ⟨t.blockNumber, t.timeStamp⟩
  | [] =>
    match g.nft with
    | t :: _ => some ⟨t.blockNumber, t.timeStamp⟩
    | [] =>
      match g.erc1155 with
      | t :: _ => some ⟨t.blockNumber, t.timeStamp⟩
      | [] => none

/-- Source: `const firstTransfer = transfers.erc20[0] || transfers.nft[0] ||
transfers.erc1155[0]`, read as `firstTransfer?.from || ""` and
`firstTransfer?.to || ""`. -/
def firstTransferFromTo (g : TransferGroup) : String × String :=
  match g.erc20 with
  | t :: _ => (t.from_, t.to_)
  | [] =>
    match g.nft with
    | t :: _ => (t.from_, t.to_)
    | [] =>
      match g.erc1155 with
      | t :: _ => (t.from_, t.to_)
      | [] => ("", "")

/-- Source `convertTransferToChainTransaction` (orphaned transfer buckets). -/
def convertTransferToChainTransaction (c : Cache) (hash : String) (rep : RepInfo)
    (g : TransferGroup) : ChainTransaction × Cache :=
  let r := buildTokenEvents c g
  let ft := firstTransferFromTo g
  ({ hash := hash
     height := if rep.blockNumber = "" then "0" else rep.blockNumber
     timestamp := rep.timeStamp
     code := 0
     chain := "celo"
     logs := some [{ msg_index := 0, log := "Token transfers", events := r.1 }]
     txc :=
       { body :=
           { messages :=
               [{ atType := msgSendType
                  from_address := some ft.1
                  to_address := some ft.2
                  amount := some [{ denom := "wei", amount := "0" }] }]
             memo := some "Token transfer" }
         auth_info := { fee := some { amount := some [] } } } },
   r.2)

/-! Grouping of transfers by hash (the `transfersByHash` map of
`mergeAllTransactions`; a JavaScript `Map`, hence insertion-ordered). -/

/-- The source's `if (!map.has(h)) map.set(h, empty); map.get(h)!.push(...)`
idiom: modify the existing bucket in place, else append a fresh one. -/
def upsertGroup (m : List (String × TransferGroup)) (h : String)
    (f : TransferGroup → TransferGroup) : List (String × TransferGroup) :=
  match m with
  | [] => [(h, f emptyGroup)]
  | (k, g) :: rest => if k = h then (k, f g) :: rest else (k, g) :: upsertGroup rest h f

def groupLookup (m : List (String × TransferGroup)) (h : String) : Option TransferGroup :=
  match m with
  | [] => none
  | (k, g) :: rest => if k = h then some g else groupLookup rest h

def groupTransfers (tokens : List EtherscanTokenTransfer) (nfts : List EtherscanNFTTransfer)
    (e1155s : List EtherscanERC1155Transfer) : List (String × TransferGroup) :=
  let m1 := tokens.foldl
    (fun m t => upsertGroup m t.hash (fun g => { g with erc20 := g.erc20 ++ [t] })) []
  let m2 := nfts.foldl
    (fun m t => upsertGroup m t.hash (fun g => { g with nft := g.nft ++ [t] })) m1
  e1155s.foldl
    (fun m t => upsertGroup m t.hash (fun g => { g with erc1155 := g.erc1155 ++ [t] })) m2

/-! The three conversion passes of `mergeAllTransactions`. -/

/-- Regular pass: every regular record is converted (and its hash marked
processed — the final processed set is just all regular hashes). -/
def convertRegulars (c : Cache) (byHash : List (String × TransferGroup)) :
    List EtherscanTransaction → List ChainTransaction × Cache
  | [] => ([], c)
  | tx :: rest =>
    let r1 := convertRegularTransaction c tx (groupLookup byHash tx.hash)
    let r2 := convertRegulars r1.2 byHash rest
    (r1.1 :: r2.1, r2.2)

/-- Internal pass: convert internal records whose hash is not yet processed,
marking each converted hash. -/
def convertInternals (processed : List String) :
    List EtherscanInternalTransaction → List ChainTransaction × List String
  | [] => ([], processed)
  | tx :: rest =>
    if tx.hash ∈ processed then convertInternals processed rest
    else
      let r := convertInternals (tx.hash :: processed) rest
      (convertInternalTransaction tx :: r.1, r.2)

/-- Orphan pass: iterate the grouped buckets in insertion order and synthesize
a record for each unprocessed hash (the source does not re-mark these hashes;
bucket keys are distinct by construction). -/
def convertOrphans (c : Cache) (processed : List String) :
    List (String × TransferGroup) → List ChainTransaction × Cache
  | [] => ([], c)
  | (h, g) :: rest =>
    if h ∈ processed then convertOrphans c processed rest
    else
      match repOf g with
      | some rep =>
        let r1 := convertTransferToChainTransaction c h rep g
        let r2 := convertOrphans r1.2 processed rest
        (r1.1 :: r2.1, r2.2)
      | none => convertOrphans c processed rest

/-- Source `mergeAllTransactions`: group transfers by hash, convert regular
records (attaching matching buckets), then unprocessed internal records, then
orphaned buckets. -/
def mergeAllTransactions (c : Cache) (regularTransactions : List EtherscanTransaction)
    (internalTransactions : List EtherscanInternalTransaction)
    (tokenTransfers : List EtherscanTokenTransfer) (nftTransfers : List EtherscanNFTTransfer)
    (erc1155Transfers : List EtherscanERC1155Transfer) : List ChainTransaction × Cache :=
  let byHash := groupTransfers tokenTransfers nftTransfers erc1155Transfers
  let reg := convertRegulars c byHash regularTransactions
  let processed1 := regularTransactions.map (fun t => t.hash)
  let int_ := convertInternals processed1 internalTransactions
  let orph := convertOrphans reg.2 int_.2 byHash
  (reg.1 ++ int_.1 ++ orph.1, orph.2)

/-! The classifier `parseTransaction` (Celo variant). -/

/-- Entry of the classifier's local `tokenTransfers` array. -/
structure TokenTransferInfo where
  symbol : String
  amount : String
  from_ : String
  to_ : String
  tokenType : String
deriving Repr, DecidableEq

/-- Mutable locals of `parseTransaction` that the event loop updates. -/
structure ParseState where
  type : String
  from_ : String
  to_ : String
  amount : String
  currency : String
  amount2 : String
  currency2 : String
  tokenTransfers : List TokenTransferInfo
deriving Repr, DecidableEq

/-- The source's `const attrs: Record<string,string>` built by
`attrs[attr.key] = attr.value`: the last occurrence of a key wins. -/
def attrLast (attrs : List Attribute) (k : String) : Option String :=
  match attrs with
  | [] => none
  | a :: rest =>
    match attrLast rest k with
    | some v => some v
    | none => if a.key = k then some a.value else none

/-- JavaScript `attrs[k] || d` (absent and empty both fall back to `d`). -/
def attrOr (attrs : List Attribute) (k d : String) : String :=
  match attrLast attrs k with
  | none => d
  | some "" => d
  | some v => v

def isTokenEventType (t : String) : Bool :=
  t = "token_transfer" || t = "nft_transfer" || t = "erc1155_transfer"

/-- Exponent used for a fungible token event: the source computes
`Math.pow(10, decimals || 18)` with `decimals = parseInt(attrs["decimals"] ||
"0")`, so a missing, empty, unparsable or zero decimals attribute yields 18. -/
def effectiveExp (attrs : List Attribute) : Int :=
  match jsParseInt (attrOr attrs "decimals" "0") with
  | none => 18
  | some 0 => 18
  | some n => n

/-- Display amount of one token event (`formattedAmount` in the source):
quantity 1 with an optional id annotation for ERC721, otherwise the rendering
of `value / 10^decimals` to 6 fixed decimals via the abstract `fmt`. -/
def eventFormattedAmount (fmt : String → Int → Nat → String) (e : TxEvent) : String :=
  if attrOr e.attributes "token_type" "ERC20" = "ERC721" then
    match attrLast e.attributes "token_id" with
    | none => "1"
    | some "" => "1"
    | some tid => "1 (ID: " ++ tid ++ ")"
  else
    fmt (attrOr e.attributes "value" "0") (effectiveExp e.attributes) 6

/-- Body of the classifier's event loop for one event (non-token event types
are skipped unchanged). -/
def processTokenEvent (fmt : String → Int → Nat → String) (walletLower : String)
    (st : ParseState) (e : TxEvent) : ParseState :=
  if isTokenEventType e.type then
    let tokenSymbol := attrOr e.attributes "token_symbol" ""
    let tokenType := attrOr e.attributes "token_type" "ERC20"
    let fromAddr := attrOr e.attributes "from" ""
    let toAddr := attrOr e.attributes "to" ""
    let formattedAmount := eventFormattedAmount fmt e
    let tokenIsOutgoing := jsToLower fromAddr = walletLower
    let tokenIsIncoming := jsToLower toAddr = walletLower
    let transfers := st.tokenTransfers ++ [⟨tokenSymbol, formattedAmount, fromAddr, toAddr, tokenType⟩]
    let st1 := { st with tokenTransfers := transfers }
    if transfers.length = 1 then
      if st1.amount = "" ∨ st1.amount = "0" then
        { st1 with
          amount := formattedAmount
          currency := tokenSymbol
          from_ := fromAddr
          to_ := toAddr
          type := if tokenIsOutgoing then "send"
            else if tokenIsIncoming then "receive" else "unknown" }
      else if st1.amount2 = "" then
        { st1 with amount2 := formattedAmount, currency2 := tokenSymbol }
      else st1
    else if transfers.length = 2 ∧ st1.amount2 = "" then
      let st2 := { st1 with amount2 := formattedAmount, currency2 := tokenSymbol }
      let firstT := transfers.head?.getD ⟨"", "", "", "", ""⟩
      let firstIsOutgoing := jsToLower firstT.from_ = walletLower
      let secondIsIncoming := tokenIsIncoming
      if (firstIsOutgoing ∧ secondIsIncoming) ∨
          (tokenIsOutgoing ∧ jsToLower firstT.to_ = walletLower) then
        { st2 with type := "swap" }
      else st2
    else st1
  else st

/-- The native-amount step of the classifier (its step 2): set the primary
amount and direction from the first message when it carries a nonzero
native-currency amount. -/
def nativeStep (fmt : String → Int → Nat → String) (walletLower : String) (m : Message)
    (st : ParseState) : ParseState :=
  match m.amount with
  | some (coin :: _) =>
    if coin.amount ≠ "" ∧ coin.amount ≠ "0" then
      { st with
        amount := fmt coin.amount 18 6
        type := if jsToLower (m.from_address.getD "") = walletLower then "send"
          else if jsToLower (m.to_address.getD "") = walletLower then "receive" else st.type }
    else st
  | _ => st

/-- The token-event loop of the classifier: iterate every event of every log
group in order. -/
def runEventLoop (fmt : String → Int → Nat → String) (walletLower : String)
    (logs : Option (List TxLog)) (s : ParseState) : ParseState :=
  match logs with
  | some logsList =>
    logsList.foldl
      (fun (s : ParseState) (lg : TxLog) =>
        lg.events.foldl (processTokenEvent fmt walletLower) s) s
  | none => s

/-- The value of the classifier's mutable locals after its decision logic
(everything in the source's `parseTransaction` up to and including the
internal-transaction fallback; the remainder of the function only builds the
fee and notes strings and assembles the result). -/
def classifyState (fmt : String → Int → Nat → String) (tx : ChainTransaction)
    (walletAddress : String) : ParseState :=
  let walletLower := jsToLower walletAddress
  let st0 : ParseState :=
    { type := "unknown", from_ := "", to_ := "", amount := "", currency := "CELO"
      amount2 := "", currency2 := "", tokenTransfers := [] }
  match tx.txc.body.messages.head? with
  | none => st0
  | some m =>
    let from0 := m.from_address.getD ""
    let to0 := m.to_address.getD ""
    let isOutgoing := jsToLower from0 = walletLower
    let isIncoming := jsToLower to0 = walletLower
    let st1 := { st0 with from_ := from0, to_ := to0 }
    let st2 := nativeStep fmt walletLower m st1
    let st3 := runEventLoop fmt walletLower tx.logs st2
    if jsIncludes (tx.txc.body.memo.getD "") "Internal transaction" ∧ st3.type = "unknown" then
      { st3 with type := if isOutgoing then "send" else if isIncoming then "receive" else "unknown" }
    else st3

/-- Source `parseTransaction` (the Celo classifier, lines 666-838), with the
IEEE-754 display rendering abstracted as `fmt` (raw string, power-of-ten
exponent, fixed decimals). -/
def parseTransaction (fmt : String → Int → Nat → String) (tx : ChainTransaction)
    (walletAddress : String) : ParsedTransaction :=
  let st := classifyState fmt tx walletAddress
  let fee :=
    match tx.txc.auth_info.fee.bind (fun f => f.amount) with
    | some (coin :: _) =>
      if coin.amount ≠ "" ∧ coin.amount ≠ "0" then fmt coin.amount 18 8 else ""
    | _ => ""
  let notes0 := st.type
  let notes1 :=
    if st.tokenTransfers.length > 0 then
      notes0 ++ " - " ++ String.intercalate ", "
        (st.tokenTransfers.map (fun (t : TokenTransferInfo) =>
          if t.tokenType = "ERC721" then t.symbol ++ " " ++ t.amount
          else t.amount ++ " " ++ t.symbol))
    else notes0
  let notes2 := notes1 ++ " - [TX: " ++ tx.hash ++ "]"
  let notes3 := notes2 ++ " (" ++ jsSlice st.from_ 8 ++ "... -> " ++ jsSlice st.to_ 8 ++ "...)"
  let notes4 :=
    match tx.txc.body.memo with
    | some memoStr => if memoStr ≠ "" then notes3 ++ " (" ++ memoStr ++ ")" else notes3
    | none => notes3
  { hash := tx.hash
    timestamp := tx.timestamp
    height := (jsParseIntRadix10 tx.height).getD 0
    type := st.type
    from_ := st.from_
    to_ := st.to_
    amount := st.amount
    currency := st.currency
    amount2 := st.amount2
    currency2 := st.currency2
    fee := fee
    feeCurrency := "CELO"
    memo := notes4
    status := if tx.code = 0 then "success" else "failed"
    chain := "celo" }

/-! The CSV exporter (src/app/utils/csvExport.ts).  `convertToAwakenCSV` with
format `"standard"` dispatches to `convertToStandardFormat`, embedded here;
the `Date` column's `M/D/YY H:MM` rendering of the timestamp is abstracted as
the `fmtDate` parameter. -/

/-- One row of the standard (multi-asset) Awaken template (source: interface
`AwakenTaxRow`).  Field names camel-case the CSV headers: `receivedQuantity`
is the "Received Quantity" column, `receivedQuantity2` is "Received Quantity
2", `receivedFiatAmount` is "Received Fiat Amount", and so on. -/
structure AwakenTaxRow where
  date : String
  receivedQuantity : String
  receivedCurrency : String
  receivedFiatAmount : String
  sentQuantity : String
  sentCurrency : String
  sentFiatAmount : String
  receivedQuantity2 : String
  receivedCurrency2 : String
  sentQuantity2 : String
  sentCurrency2 : String
  feeAmount : String
  feeCurrency : String
  notes : String
  tag : String
deriving Repr, DecidableEq

/-- The source's `tagMap[tx.type] || ""` lookup (the `unknown` entry maps to
`""` both through the table and through the default). -/
def tagMapGet (t : String) : String :=
  if t = "send" then "transfer"
  else if t = "receive" then "transfer"
  else if t = "swap" then "trade"
  else if t = "ibc_transfer" then "transfer"
  else if t = "delegate" then "staking"
  else if t = "undelegate" then "staking"
  else if t = "claim_rewards" then "staking"
  else if t = "pool_deposit" then "liquidity"
  else if t = "pool_withdraw" then "liquidity"
  else if t = "governance_vote" then "governance"
  else ""

/-- The per-transaction body of `convertToStandardFormat`. -/
def standardRowOf (fmtDate : String → String) (walletAddress : String)
    (tx : ParsedTransaction) : AwakenTaxRow :=
  let rs : String × String × String × String :=
    if tx.type = "receive" ∨ tx.type = "claim_rewards" then (tx.amount, tx.currency, "", "")
    else if tx.type = "send" ∨ tx.type = "delegate" then ("", "", tx.amount, tx.currency)
    else if tx.type = "swap" then
      if tx.amount2 ≠ "" ∧ tx.currency2 ≠ "" then (tx.amount2, tx.currency2, tx.amount, tx.currency)
      else ("", "", tx.amount, tx.currency)
    else if tx.type = "ibc_transfer" then
      if jsToLower tx.from_ = jsToLower walletAddress then ("", "", tx.amount, tx.currency)
      else (tx.amount, tx.currency, "", "")
    else ("", "", "", "")
  { date := fmtDate tx.timestamp
    receivedQuantity := rs.1
    receivedCurrency := rs.2.1
    receivedFiatAmount := ""
    sentQuantity := rs.2.2.1
    sentCurrency := rs.2.2.2
    sentFiatAmount := ""
    receivedQuantity2 := ""
    receivedCurrency2 := ""
    sentQuantity2 := ""
    sentCurrency2 := ""
    feeAmount := tx.fee
    feeCurrency := tx.feeCurrency
    notes := if tx.memo ≠ "" then tx.memo else tx.type ++ " - " ++ jsSlice tx.hash 8
    tag := tagMapGet tx.type }

/-- Source `convertToStandardFormat` (the `"standard"` branch of
`convertToAwakenCSV`). -/
def convertToStandardFormat (fmtDate : String → String) (transactions : List ParsedTransaction)
    (walletAddress : String) : List AwakenTaxRow :=
  transactions.map (standardRowOf fmtDate walletAddress)

/-! Observation helpers used to state the claims. -/

/-- All events of a canonical record, in log order (flattening the `logs`
array the classifier iterates). -/
def eventsOf (tx : ChainTransaction) : List TxEvent :=
  match tx.logs with
  | some ls => ls.flatMap (fun lg => lg.events)
  | none => []

/-- The token-transfer-like events of a canonical record, in the order the
classifier's loop visits them. -/
def tokenEventsOf (tx : ChainTransaction) : List TxEvent :=
  (eventsOf tx).filter (fun e => isTokenEventType e.type)

def eventSymbol (e : TxEvent) : String := attrOr e.attributes "token_symbol" ""

def eventValue (e : TxEvent) : String := attrOr e.attributes "value" "0"

def eventTokenType (e : TxEvent) : String := attrOr e.attributes "token_type" "ERC20"

def eventFrom (e : TxEvent) : String := attrOr e.attributes "from" ""

def eventTo (e : TxEvent) : String := attrOr e.attributes "to" ""

/-- Attributes of an event that do not depend on the token-metadata cache
(everything except `token_symbol`, `token_name` and `decimals`). -/
def cacheIndepAttrs (attrs : List Attribute) : List Attribute :=
  attrs.filter (fun a =>
    !(a.key == "token_symbol" || a.key == "token_name" || a.key == "decimals"))

/-- Cache-independent identity of an event: its type together with the
attributes that come straight from the raw transfer record. -/
def eventKey (e : TxEvent) : String × List Attribute :=
  (e.type, cacheIndepAttrs e.attributes)

/-- The `eventKey` an ERC20 transfer record gives rise to. -/
def erc20Key (t : EtherscanTokenTransfer) : String × List Attribute :=
  ("token_transfer",
   [⟨"sender_address", t.contractAddress⟩, ⟨"value", t.value⟩,
    ⟨"from", t.from_⟩, ⟨"to", t.to_⟩, ⟨"token_type", "ERC20"⟩])

/-- The `eventKey` an ERC721 transfer record gives rise to. -/
def nftKey (t : EtherscanNFTTransfer) : String × List Attribute :=
  ("nft_transfer",
   [⟨"sender_address", t.contractAddress⟩, ⟨"token_id", t.tokenID⟩,
    ⟨"from", t.from_⟩, ⟨"to", t.to_⟩, ⟨"token_type", "ERC721"⟩])

/-- The `eventKey` an ERC1155 transfer record gives rise to. -/
def erc1155Key (t : EtherscanERC1155Transfer) : String × List Attribute :=
  ("erc1155_transfer",
   [⟨"sender_address", t.contractAddress⟩, ⟨"value", t.tokenValue⟩,
    ⟨"token_id", t.tokenID⟩, ⟨"from", t.from_⟩, ⟨"to", t.to_⟩,
    ⟨"token_type", "ERC1155"⟩])

/-- The transfer bucket for a hash as the spec describes it: all transfer
records sharing the hash, per category, in input order. -/
def bucketOf (ts : List EtherscanTokenTransfer) (ns : List EtherscanNFTTransfer)
    (es : List EtherscanERC1155Transfer) (h : String) : TransferGroup :=
  { erc20 := ts.filter (fun t => t.hash == h)
    nft := ns.filter (fun t => t.hash == h)
    erc1155 := es.filter (fun t => t.hash == h) }

/-- The primary message carries no nonzero native amount (the classifier's
step-2 guard `rawAmount && rawAmount !== "0"` fails). -/
def nativeAmountUnset (m : Message) : Prop :=
  match m.amount with
  | some (coin :: _) => coin.amount = "" ∨ coin.amount = "0"
  | _ => True

/-- Arguments of one `getTokenMetadata` resolution. -/
structure MetaCall where
  contractAddress : String
  apiSymbol : String
  apiName : String
  apiDecimals : String
deriving Repr, DecidableEq

/-- An arbitrary sequence of metadata resolutions within one fetch session
(every caller of `getTokenMetadata` threads the cache this way). -/
def runMetadataCalls (c : Cache) : List MetaCall → List TokenMetadata × Cache
  | [] => ([], c)
  | a :: rest =>
    let r1 := getTokenMetadata c a.contractAddress a.apiSymbol a.apiName a.apiDecimals
    let r2 := runMetadataCalls r1.2 rest
    (r1.1 :: r2.1, r2.2)

/-! Claim C4. -/

/-- C4: the claim says that for an uncached contract address the symbol is
resolved by the hardcoded well-known-token table first (so the Celo Dollar
contract would resolve to "cUSD" whenever the API symbol is unusable).  The
code lowercases the address before indexing `CELO_TOKEN_MAP`, whose keys are
mixed-case, so the table lookup never succeeds: at the cUSD contract address
with an empty API symbol the resolved symbol is the first 10 characters of
the lowercased address, not "cUSD", and this theorem evaluates the code
there. -/
theorem getTokenMetadata_celo_table_dead :
    (getTokenMetadata [] "0x765DE816845861e75A25fCA122bb6898B8B1282a" "" "" "18").1 =
      { symbol := "0x765de816", decimals := 18, name := "0x765de816" } ∧
    celoTokenMapGet (jsToLower "0x765DE816845861e75A25fCA122bb6898B8B1282a") = none ∧
    (CELO_TOKEN_MAP.find? (fun p => p.1 = "0x765DE816845861e75A25fCA122bb6898B8B1282a")).isSome
      = true := by
  decide

/-! Claim C9. -/

/-- C9: the standard-format CSV row for a `ParsedTransaction` of type
`receive` has Received Quantity equal to the transaction's amount, Received
Currency equal to its currency, empty Sent Quantity and Sent Currency, Fee
Amount equal to its fee, and Tag "transfer". -/
theorem convertToStandardFormat_receive_row (fmtDate : String → String)
    (txs : List ParsedTransaction) (w : String) (i : Nat) (tx : ParsedTransaction)
    (hi : txs[i]? = some tx) (ht : tx.type = "receive") :
    ∃ row, (convertToStandardFormat fmtDate txs w)[i]? = some row ∧
      row.receivedQuantity = tx.amount ∧ row.receivedCurrency = tx.currency ∧
      row.sentQuantity = "" ∧ row.sentCurrency = "" ∧
      row.feeAmount = tx.fee ∧ row.tag = "transfer" := by
  refine ⟨standardRowOf fmtDate w tx, ?_, ?_⟩
  · simp [convertToStandardFormat, hi]
  · simp [standardRowOf, tagMapGet, ht]

def c9tx : ParsedTransaction :=
  { hash := "0xhash9", timestamp := "1700000000", height := 1, type := "receive"
    from_ := "osmo1abc", to_ := "osmo1g8g", amount := "5", currency := "OSMO"
    amount2 := "", currency2 := "", fee := "0.01", feeCurrency := "OSMO"
    memo := "memo", status := "success", chain := "osmosis" }

/-- Witness for C9 at the spec's concrete scenario row. -/
theorem convertToStandardFormat_receive_row_witness :
    ∃ row, (convertToStandardFormat (fun s => s) [c9tx] "osmo1g8g")[0]? = some row ∧
      row.receivedQuantity = c9tx.amount ∧ row.receivedCurrency = c9tx.currency ∧
      row.sentQuantity = "" ∧ row.sentCurrency = "" ∧
      row.feeAmount = c9tx.fee ∧ row.tag = "transfer" :=
  convertToStandardFormat_receive_row (fun s => s) [c9tx] "osmo1g8g" 0 c9tx rfl rfl

/-! Claim C10. -/

/-- C10: every standard-format row leaves the four multi-asset extension
columns ("Received Quantity 2", "Received Currency 2", "Sent Quantity 2",
"Sent Currency 2") and the two fiat columns empty, for every transaction
type; a swap's second leg is emitted in the primary Received columns
instead. -/
theorem convertToStandardFormat_extension_columns_empty (fmtDate : String → String)
    (txs : List ParsedTransaction) (w : String) :
    (∀ row ∈ convertToStandardFormat fmtDate txs w,
       row.receivedQuantity2 = "" ∧ row.receivedCurrency2 = "" ∧
       row.sentQuantity2 = "" ∧ row.sentCurrency2 = "" ∧
       row.receivedFiatAmount = "" ∧ row.sentFiatAmount = "") ∧
    (∀ (i : Nat) (tx : ParsedTransaction),
       txs[i]? = some tx → tx.type = "swap" → tx.amount2 ≠ "" → tx.currency2 ≠ "" →
       ∃ row, (convertToStandardFormat fmtDate txs w)[i]? = some row ∧
         row.receivedQuantity = tx.amount2 ∧ row.receivedCurrency = tx.currency2 ∧
         row.sentQuantity = tx.amount ∧ row.sentCurrency = tx.currency) := by
  constructor
  · intro row hrow
    simp only [convertToStandardFormat, List.mem_map] at hrow
    obtain ⟨tx, -, rfl⟩ := hrow
    simp [standardRowOf]
  · intro i tx hi ht ha hc
    refine ⟨standardRowOf fmtDate w tx, ?_, ?_⟩
    · simp [convertToStandardFormat, hi]
    · simp [standardRowOf, ht, ha, hc]

def c10tx : ParsedTransaction :=
  { hash := "0xhash10", timestamp := "1700000001", height := 2, type := "swap"
    from_ := "0xw", to_ := "0xy", amount := "1.000000", currency := "USDC"
    amount2 := "2.000000", currency2 := "ETH", fee := "0.00000050", feeCurrency := "CELO"
    memo := "", status := "success", chain := "celo" }

/-- Witness for C10 at a concrete swap transaction. -/
theorem convertToStandardFormat_extension_columns_empty_witness :
    (∃ row, (convertToStandardFormat (fun s => s) [c10tx] "0xw")[0]? = some row ∧
       row.receivedQuantity2 = "" ∧ row.receivedCurrency2 = "" ∧
       row.sentQuantity2 = "" ∧ row.sentCurrency2 = "" ∧
       row.receivedFiatAmount = "" ∧ row.sentFiatAmount = "") ∧
    (∃ row, (convertToStandardFormat (fun s => s) [c10tx] "0xw")[0]? = some row ∧
       row.receivedQuantity = c10tx.amount2 ∧ row.receivedCurrency = c10tx.currency2 ∧
       row.sentQuantity = c10tx.amount ∧ row.sentCurrency = c10tx.currency) := by
  have h := convertToStandardFormat_extension_columns_empty (fun s => s) [c10tx] "0xw"
  refine ⟨⟨standardRowOf (fun s => s) "0xw" c10tx, rfl, h.1 _ ?_⟩,
    h.2 0 c10tx rfl rfl (by decide) (by decide)⟩
  simp [convertToStandardFormat]

/-! Grouping lemmas for the normalizer claims (C1, C3, C5). -/

def groupKeys (m : List (String × TransferGroup)) : List String := m.map Prod.fst

theorem groupLookup_isSome_iff (m : List (String × TransferGroup)) (h : String) :
    (groupLookup m h).isSome = true ↔ h ∈ groupKeys m := by
  induction m with
  | nil => simp [groupLookup, groupKeys]
  | cons kg rest ih =>
    obtain ⟨k, g⟩ := kg
    by_cases hk : k = h
    · subst hk
      simp [groupLookup, groupKeys]
    · simp only [groupLookup, if_neg hk]
      rw [ih]
      have hcons : groupKeys ((k, g) :: rest) = k :: groupKeys rest := rfl
      rw [hcons, List.mem_cons]
      constructor
      · exact fun hm => Or.inr hm
      · rintro (he | hm)
        · exact absurd he.symm hk
        · exact hm

theorem groupLookup_upsert (m : List (String × TransferGroup)) (h : String)
    (f : TransferGroup → TransferGroup) (hq : String) :
    groupLookup (upsertGroup m h f) hq =
      if h = hq then some (f ((groupLookup m h).getD emptyGroup)) else groupLookup m hq := by
  induction m with
  | nil =>
    by_cases hh : h = hq <;> simp [upsertGroup, groupLookup, hh]
  | cons kg rest ih =>
    obtain ⟨k, g⟩ := kg
    by_cases hk : k = h
    · subst hk
      by_cases hq2 : k = hq
      · subst hq2
        simp [upsertGroup, groupLookup]
      · have : ¬ k = hq := hq2
        simp [upsertGroup, groupLookup, this]
    · by_cases hq2 : k = hq
      · subst hq2
        have hne : ¬ h = k := fun he => hk he.symm
        simp [upsertGroup, groupLookup, hk, hne]
      · simp [upsertGroup, groupLookup, hk, hq2, ih]

theorem groupKeys_upsert (m : List (String × TransferGroup)) (h : String)
    (f : TransferGroup → TransferGroup) :
    groupKeys (upsertGroup m h f) =
      if h ∈ groupKeys m then groupKeys m else groupKeys m ++ [h] := by
  induction m with
  | nil => simp [upsertGroup, groupKeys]
  | cons kg rest ih =>
    obtain ⟨k, g⟩ := kg
    by_cases hk : k = h
    · subst hk
      simp [upsertGroup, groupKeys]
    · have hne : ¬ h = k := fun he => hk he.symm
      have hcons : groupKeys ((k, g) :: rest) = k :: groupKeys rest := rfl
      have hup : groupKeys (upsertGroup ((k, g) :: rest) h f) =
          k :: groupKeys (upsertGroup rest h f) := by
        simp [upsertGroup, hk, groupKeys]
      rw [hup, ih, hcons]
      by_cases hm : h ∈ groupKeys rest
      · rw [if_pos hm, if_pos (List.mem_cons_of_mem _ hm)]
      · have hnotc : ¬ h ∈ k :: groupKeys rest := by
          rw [List.mem_cons]
          rintro (he | hm2)
          · exact hne he
          · exact hm hm2
        rw [if_neg hm, if_neg hnotc]
        rfl

theorem groupKeys_upsert_nodup (m : List (String × TransferGroup)) (h : String)
    (f : TransferGroup → TransferGroup) (hm : (groupKeys m).Nodup) :
    (groupKeys (upsertGroup m h f)).Nodup := by
  rw [groupKeys_upsert]
  by_cases hmem : h ∈ groupKeys m
  · simpa [hmem] using hm
  · simp [hmem, List.nodup_append, hm]

theorem foldl_upsert_keys_nodup {α : Type} (key : α → String)
    (upd : α → TransferGroup → TransferGroup) (l : List α)
    (m : List (String × TransferGroup)) (hm : (groupKeys m).Nodup) :
    (groupKeys (l.foldl (fun mm t => upsertGroup mm (key t) (upd t)) m)).Nodup := by
  induction l generalizing m with
  | nil => exact hm
  | cons t rest ih => exact ih _ (groupKeys_upsert_nodup m (key t) (upd t) hm)

theorem foldl_upsert_mem_keys {α : Type} (key : α → String)
    (upd : α → TransferGroup → TransferGroup) (l : List α)
    (m : List (String × TransferGroup)) (k : String) :
    k ∈ groupKeys (l.foldl (fun mm t => upsertGroup mm (key t) (upd t)) m) ↔
      k ∈ groupKeys m ∨ k ∈ l.map key := by
  induction l generalizing m with
  | nil => simp
  | cons t rest ih =>
    rw [List.foldl_cons, ih]
    have hup : k ∈ groupKeys (upsertGroup m (key t) (upd t)) ↔
        k ∈ groupKeys m ∨ k = key t := by
      rw [groupKeys_upsert]
      by_cases hmem : key t ∈ groupKeys m
      · rw [if_pos hmem]
        constructor
        · exact fun h => Or.inl h
        · rintro (h | rfl)
          · exact h
          · exact hmem
      · rw [if_neg hmem]
        simp
    rw [hup]
    simp only [List.map_cons, List.mem_cons]
    tauto

theorem foldl_upsert_lookupD {α : Type} (key : α → String)
    (upd : α → TransferGroup → TransferGroup) (l : List α)
    (m : List (String × TransferGroup)) (h : String) :
    (groupLookup (l.foldl (fun mm t => upsertGroup mm (key t) (upd t)) m) h).getD emptyGroup =
      l.foldl (fun g t => if key t = h then upd t g else g)
        ((groupLookup m h).getD emptyGroup) := by
  induction l generalizing m with
  | nil => rfl
  | cons t rest ih =>
    rw [List.foldl_cons, List.foldl_cons, ih]
    congr 1
    rw [groupLookup_upsert]
    by_cases hk : key t = h
    · rw [if_pos hk, if_pos hk, hk]
      rfl
    · rw [if_neg hk, if_neg hk]

theorem foldl_pushErc20 (l : List EtherscanTokenTransfer) (h : String) (g : TransferGroup) :
    l.foldl (fun g t => if t.hash = h then { g with erc20 := g.erc20 ++ [t] } else g) g =
      { g with erc20 := g.erc20 ++ l.filter (fun t => t.hash == h) } := by
  induction l generalizing g with
  | nil => simp
  | cons t rest ih =>
    by_cases ht : t.hash = h
    · rw [List.foldl_cons, if_pos ht, ih]
      simp [List.filter_cons, ht]
    · rw [List.foldl_cons, if_neg ht, ih]
      simp [List.filter_cons, ht]

theorem foldl_pushNft (l : List EtherscanNFTTransfer) (h : String) (g : TransferGroup) :
    l.foldl (fun g t => if t.hash = h then { g with nft := g.nft ++ [t] } else g) g =
      { g with nft := g.nft ++ l.filter (fun t => t.hash == h) } := by
  induction l generalizing g with
  | nil => simp
  | cons t rest ih =>
    by_cases ht : t.hash = h
    · rw [List.foldl_cons, if_pos ht, ih]
      simp [List.filter_cons, ht]
    · rw [List.foldl_cons, if_neg ht, ih]
      simp [List.filter_cons, ht]

theorem foldl_pushErc1155 (l : List EtherscanERC1155Transfer) (h : String) (g : TransferGroup) :
    l.foldl (fun g t => if t.hash = h then { g with erc1155 := g.erc1155 ++ [t] } else g) g =
      { g with erc1155 := g.erc1155 ++ l.filter (fun t => t.hash == h) } := by
  induction l generalizing g with
  | nil => simp
  | cons t rest ih =>
    by_cases ht : t.hash = h
    · rw [List.foldl_cons, if_pos ht, ih]
      simp [List.filter_cons, ht]
    · rw [List.foldl_cons, if_neg ht, ih]
      simp [List.filter_cons, ht]

/-- The bucket the grouping pass associates with a hash is exactly the bucket
of all transfers sharing that hash, in input order. -/
theorem groupLookupD_groupTransfers (ts : List EtherscanTokenTransfer)
    (ns : List EtherscanNFTTransfer) (es : List EtherscanERC1155Transfer) (h : String) :
    (groupLookup (groupTransfers ts ns es) h).getD emptyGroup = bucketOf ts ns es h := by
  unfold groupTransfers
  rw [foldl_upsert_lookupD, foldl_upsert_lookupD, foldl_upsert_lookupD]
  have h0 : (groupLookup [] h).getD emptyGroup = emptyGroup := rfl
  rw [h0, foldl_pushErc20, foldl_pushNft, foldl_pushErc1155]
  simp [emptyGroup, bucketOf]

theorem mem_groupKeys_groupTransfers (ts : List EtherscanTokenTransfer)
    (ns : List EtherscanNFTTransfer) (es : List EtherscanERC1155Transfer) (k : String) :
    k ∈ groupKeys (groupTransfers ts ns es) ↔
      k ∈ ts.map (fun t => t.hash) ∨ k ∈ ns.map (fun t => t.hash) ∨
        k ∈ es.map (fun t => t.hash) := by
  unfold groupTransfers
  rw [foldl_upsert_mem_keys, foldl_upsert_mem_keys, foldl_upsert_mem_keys]
  simp only [groupKeys, List.map_nil, List.not_mem_nil, false_or]
  tauto

theorem groupKeys_groupTransfers_nodup (ts : List EtherscanTokenTransfer)
    (ns : List EtherscanNFTTransfer) (es : List EtherscanERC1155Transfer) :
    (groupKeys (groupTransfers ts ns es)).Nodup := by
  unfold groupTransfers
  exact foldl_upsert_keys_nodup _ _ es _
    (foldl_upsert_keys_nodup _ _ ns _
      (foldl_upsert_keys_nodup _ _ ts [] (by simp [groupKeys])))

/-! Event-identity lemmas: the cache-independent part of every built event is
determined by the raw transfer record. -/

theorem eventKey_erc20 (md : TokenMetadata) (t : EtherscanTokenTransfer) :
    eventKey (erc20TransferEvent md t) = erc20Key t := rfl

theorem eventKey_nft (md : TokenMetadata) (t : EtherscanNFTTransfer) :
    eventKey (nftTransferEvent md t) = nftKey t := rfl

theorem eventKey_erc1155 (md : TokenMetadata) (t : EtherscanERC1155Transfer) :
    eventKey (erc1155TransferEvent md t) = erc1155Key t := rfl

theorem buildErc20Events_keys (c : Cache) (l : List EtherscanTokenTransfer) :
    ((buildErc20Events c l).1).map eventKey = l.map erc20Key := by
  induction l generalizing c with
  | nil => rfl
  | cons t rest ih => simp [buildErc20Events, eventKey_erc20, ih]

theorem buildNftEvents_keys (c : Cache) (l : List EtherscanNFTTransfer) :
    ((buildNftEvents c l).1).map eventKey = l.map nftKey := by
  induction l generalizing c with
  | nil => rfl
  | cons t rest ih => simp [buildNftEvents, eventKey_nft, ih]

theorem buildErc1155Events_keys (c : Cache) (l : List EtherscanERC1155Transfer) :
    ((buildErc1155Events c l).1).map eventKey = l.map erc1155Key := by
  induction l generalizing c with
  | nil => rfl
  | cons t rest ih => simp [buildErc1155Events, eventKey_erc1155, ih]

theorem buildTokenEvents_keys (c : Cache) (g : TransferGroup) :
    ((buildTokenEvents c g).1).map eventKey =
      g.erc20.map erc20Key ++ g.nft.map nftKey ++ g.erc1155.map erc1155Key := by
  unfold buildTokenEvents
  simp [buildErc20Events_keys, buildNftEvents_keys, buildErc1155Events_keys]

theorem eventsOf_convertRegular (c : Cache) (tx : EtherscanTransaction)
    (gq : Option TransferGroup) :
    eventsOf ((convertRegularTransaction c tx gq).1) =
      (match gq with | some g => (buildTokenEvents c g).1 | none => []) := by
  cases gq with
  | none => rfl
  | some g =>
    cases hev : (buildTokenEvents c g).1 with
    | nil => simp [eventsOf, convertRegularTransaction, hev]
    | cons e es => simp [eventsOf, convertRegularTransaction, hev]

theorem eventsOf_convertTransfer (c : Cache) (h : String) (rep : RepInfo)
    (g : TransferGroup) :
    eventsOf ((convertTransferToChainTransaction c h rep g).1) = (buildTokenEvents c g).1 := by
  simp [eventsOf, convertTransferToChainTransaction]

/-! Lemmas about the three conversion passes. -/

theorem convertRegulars_map_hash (c : Cache) (byHash : List (String × TransferGroup))
    (regs : List EtherscanTransaction) :
    ((convertRegulars c byHash regs).1).map (fun r => r.hash) =
      regs.map (fun t => t.hash) := by
  induction regs generalizing c with
  | nil => rfl
  | cons t rest ih => simp [convertRegulars, ih, convertRegularTransaction]

theorem convertRegulars_getElem (c : Cache) (byHash : List (String × TransferGroup))
    (regs : List EtherscanTransaction) (i : Nat) (tx : EtherscanTransaction)
    (h : regs[i]? = some tx) :
    ∃ c2, (convertRegulars c byHash regs).1[i]? =
      some ((convertRegularTransaction c2 tx (groupLookup byHash tx.hash)).1) := by
  induction regs generalizing c i with
  | nil => simp at h
  | cons t rest ih =>
    cases i with
    | zero =>
      simp only [List.getElem?_cons_zero, Option.some.injEq] at h
      subst h
      exact ⟨c, by simp [convertRegulars]⟩
    | succ j =>
      simp only [List.getElem?_cons_succ] at h
      obtain ⟨c2, hc2⟩ :=
        ih (convertRegularTransaction c t (groupLookup byHash t.hash)).2 j h
      exact ⟨c2, by simpa [convertRegulars] using hc2⟩

theorem convertInternals_mem_processed (p0 : List String)
    (txs : List EtherscanInternalTransaction) (k : String) :
    k ∈ (convertInternals p0 txs).2 ↔ k ∈ p0 ∨ k ∈ txs.map (fun t => t.hash) := by
  induction txs generalizing p0 with
  | nil => simp [convertInternals]
  | cons t rest ih =>
    by_cases h : t.hash ∈ p0
    · rw [show convertInternals p0 (t :: rest) = convertInternals p0 rest by
        simp [convertInternals, h]]
      rw [ih]
      simp only [List.map_cons, List.mem_cons]
      constructor
      · rintro (hp | hm)
        · exact Or.inl hp
        · exact Or.inr (Or.inr hm)
      · rintro (hp | rfl | hm)
        · exact Or.inl hp
        · exact Or.inl h
        · exact Or.inr hm
    · have hstep : (convertInternals p0 (t :: rest)).2 =
          (convertInternals (t.hash :: p0) rest).2 := by
        simp [convertInternals, h]
      rw [hstep, ih]
      simp only [List.mem_cons, List.map_cons]
      tauto

theorem convertInternals_hashes (p0 : List String)
    (txs : List EtherscanInternalTransaction) :
    (((convertInternals p0 txs).1).map (fun r => r.hash)).Nodup ∧
    ∀ k ∈ ((convertInternals p0 txs).1).map (fun r => r.hash),
      k ∉ p0 ∧ k ∈ txs.map (fun t => t.hash) := by
  induction txs generalizing p0 with
  | nil => simp [convertInternals]
  | cons t rest ih =>
    by_cases h : t.hash ∈ p0
    · rw [show (convertInternals p0 (t :: rest)).1 = (convertInternals p0 rest).1 by
        simp [convertInternals, h]]
      obtain ⟨hnd, hsub⟩ := ih p0
      refine ⟨hnd, fun k hk => ?_⟩
      obtain ⟨hk1, hk2⟩ := hsub k hk
      exact ⟨hk1, by simp only [List.map_cons, List.mem_cons]; exact Or.inr hk2⟩
    · have hstep : (convertInternals p0 (t :: rest)).1 =
          convertInternalTransaction t :: (convertInternals (t.hash :: p0) rest).1 := by
        simp [convertInternals, h]
      obtain ⟨hnd, hsub⟩ := ih (t.hash :: p0)
      rw [hstep]
      have hhash : (convertInternalTransaction t).hash = t.hash := rfl
      constructor
      · simp only [List.map_cons, List.nodup_cons, hhash]
        refine ⟨fun hmem => ?_, hnd⟩
        obtain ⟨hk1, _⟩ := hsub t.hash hmem
        exact hk1 (List.mem_cons_self _ _)
      · intro k hk
        simp only [List.map_cons, List.mem_cons, hhash] at hk
        rcases hk with rfl | hk
        · exact ⟨h, by simp⟩
        · obtain ⟨hk1, hk2⟩ := hsub k hk
          have hknp : k ∉ p0 := fun hp => hk1 (List.mem_cons_of_mem _ hp)
          exact ⟨hknp, by simp only [List.map_cons, List.mem_cons]; exact Or.inr hk2⟩

theorem convertOrphans_hashes (c : Cache) (processed : List String)
    (entries : List (String × TransferGroup)) (hk : (groupKeys entries).Nodup) :
    (((convertOrphans c processed entries).1).map (fun r => r.hash)).Nodup ∧
    ∀ k ∈ ((convertOrphans c processed entries).1).map (fun r => r.hash),
      k ∈ groupKeys entries ∧ k ∉ processed := by
  induction entries generalizing c with
  | nil => simp [convertOrphans]
  | cons e rest ih =>
    obtain ⟨h, g⟩ := e
    have hcons : groupKeys ((h, g) :: rest) = h :: groupKeys rest := rfl
    rw [hcons] at hk
    have hk1 : h ∉ groupKeys rest := (List.nodup_cons.mp hk).1
    have hk2 : (groupKeys rest).Nodup := (List.nodup_cons.mp hk).2
    by_cases hp : h ∈ processed
    · rw [show (convertOrphans c processed ((h, g) :: rest)).1 =
          (convertOrphans c processed rest).1 by simp [convertOrphans, hp]]
      obtain ⟨hnd, hsub⟩ := ih c hk2
      refine ⟨hnd, fun k hkk => ?_⟩
      obtain ⟨hm, hnp⟩ := hsub k hkk
      exact ⟨by rw [hcons]; exact List.mem_cons_of_mem _ hm, hnp⟩
    · cases hrep : repOf g with
      | none =>
        rw [show (convertOrphans c processed ((h, g) :: rest)).1 =
            (convertOrphans c processed rest).1 by simp [convertOrphans, hp, hrep]]
        obtain ⟨hnd, hsub⟩ := ih c hk2
        refine ⟨hnd, fun k hkk => ?_⟩
        obtain ⟨hm, hnp⟩ := hsub k hkk
        exact ⟨by rw [hcons]; exact List.mem_cons_of_mem _ hm, hnp⟩
      | some rep =>
        have hstep : (convertOrphans c processed ((h, g) :: rest)).1 =
            (convertTransferToChainTransaction c h rep g).1 ::
              (convertOrphans (convertTransferToChainTransaction c h rep g).2
                processed rest).1 := by
          simp [convertOrphans, hp, hrep]
        obtain ⟨hnd, hsub⟩ := ih (convertTransferToChainTransaction c h rep g).2 hk2
        rw [hstep]
        have hhash : ((convertTransferToChainTransaction c h rep g).1).hash = h := rfl
        constructor
        · simp only [List.map_cons, List.nodup_cons, hhash]
          refine ⟨fun hmem => ?_, hnd⟩
          obtain ⟨hm, _⟩ := hsub h hmem
          exact hk1 hm
        · intro k hkk
          simp only [List.map_cons, List.mem_cons, hhash] at hkk
          rcases hkk with rfl | hkk
          · exact ⟨by rw [hcons]; exact List.mem_cons_self _ _, hp⟩
          · obtain ⟨hm, hnp⟩ := hsub k hkk
            exact ⟨by rw [hcons]; exact List.mem_cons_of_mem _ hm, hnp⟩

theorem filter_hash_eq_nil (l : List ChainTransaction) (h : String)
    (hn : h ∉ l.map (fun r => r.hash)) :
    l.filter (fun r => r.hash == h) = [] := by
  rw [List.filter_eq_nil_iff]
  intro r hr
  simp only [beq_iff_eq]
  intro heq
  exact hn (by rw [← heq]; exact List.mem_map_of_mem _ hr)

theorem repOf_isSome (g : TransferGroup)
    (hne : g.erc20 ≠ [] ∨ g.nft ≠ [] ∨ g.erc1155 ≠ []) :
    ∃ rep, repOf g = some rep := by
  obtain ⟨e20, nf, e15⟩ := g
  cases e20 with
  | cons t r => exact ⟨⟨t.blockNumber, t.timeStamp⟩, rfl⟩
  | nil =>
    cases nf with
    | cons t r => exact ⟨⟨t.blockNumber, t.timeStamp⟩, rfl⟩
    | nil =>
      cases e15 with
      | cons t r => exact ⟨⟨t.blockNumber, t.timeStamp⟩, rfl⟩
      | nil => simp at hne

/-- The orphan pass synthesizes exactly one record for an unprocessed bucket
key: filtering its output by that hash yields a singleton, built by
`convertTransferToChainTransaction` from the bucket (under some intermediate
cache state). -/
theorem convertOrphans_filter (processed : List String) (h : String) (g : TransferGroup)
    (rep : RepInfo) (hp : h ∉ processed) (hrep : repOf g = some rep) :
    ∀ (entries : List (String × TransferGroup)) (c : Cache),
      (groupKeys entries).Nodup → groupLookup entries h = some g →
      ∃ c2, ((convertOrphans c processed entries).1).filter (fun r => r.hash == h) =
        [(convertTransferToChainTransaction c2 h rep g).1] := by
  intro entries
  induction entries with
  | nil => intro c hk hlk; simp [groupLookup] at hlk
  | cons e rest ih =>
    intro c hk hlk
    obtain ⟨k, g1⟩ := e
    have hcons : groupKeys ((k, g1) :: rest) = k :: groupKeys rest := rfl
    rw [hcons] at hk
    have hk1 : k ∉ groupKeys rest := (List.nodup_cons.mp hk).1
    have hk2 : (groupKeys rest).Nodup := (List.nodup_cons.mp hk).2
    by_cases hkh : k = h
    · subst hkh
      have hg : g1 = g := by simpa [groupLookup] using hlk
      subst hg
      have hstep : (convertOrphans c processed ((k, g1) :: rest)).1 =
          (convertTransferToChainTransaction c k rep g1).1 ::
            (convertOrphans (convertTransferToChainTransaction c k rep g1).2
              processed rest).1 := by
        simp [convertOrphans, hp, hrep]
      refine ⟨c, ?_⟩
      rw [hstep, List.filter_cons]
      have hhash : ((convertTransferToChainTransaction c k rep g1).1).hash = k := rfl
      have htail := (convertOrphans_hashes
        (convertTransferToChainTransaction c k rep g1).2 processed rest hk2).2
      have hnm : k ∉ ((convertOrphans (convertTransferToChainTransaction c k rep g1).2
          processed rest).1).map (fun r => r.hash) :=
        fun hmem => hk1 (htail k hmem).1
      rw [filter_hash_eq_nil _ _ hnm]
      simp [hhash]
    · have hlk2 : groupLookup rest h = some g := by
        simpa [groupLookup, hkh] using hlk
      by_cases hkp : k ∈ processed
      · rw [show (convertOrphans c processed ((k, g1) :: rest)).1 =
            (convertOrphans c processed rest).1 by simp [convertOrphans, hkp]]
        exact ih c hk2 hlk2
      · cases hrep1 : repOf g1 with
        | none =>
          rw [show (convertOrphans c processed ((k, g1) :: rest)).1 =
              (convertOrphans c processed rest).1 by simp [convertOrphans, hkp, hrep1]]
          exact ih c hk2 hlk2
        | some rep1 =>
          have hstep : (convertOrphans c processed ((k, g1) :: rest)).1 =
              (convertTransferToChainTransaction c k rep1 g1).1 ::
                (convertOrphans (convertTransferToChainTransaction c k rep1 g1).2
                  processed rest).1 := by
            simp [convertOrphans, hkp, hrep1]
          obtain ⟨c2, hc2⟩ := ih (convertTransferToChainTransaction c k rep1 g1).2 hk2 hlk2
          refine ⟨c2, ?_⟩
          rw [hstep, List.filter_cons]
          have hhash : ((convertTransferToChainTransaction c k rep1 g1).1).hash = k := rfl
          have hfalse : (((convertTransferToChainTransaction c k rep1 g1).1).hash == h)
              = false := by
            simp [hhash, hkh]
          rw [hfalse]
          simpa using hc2

/-! Claim C3. -/

/-- C3: the canonical record built for the i-th base (regular) transaction
carries as events exactly the ERC20, then NFT, then ERC1155 transfers sharing
its hash, in input order, none dropped and none duplicated (stated through
the cache-independent identity `eventKey` of each event). -/
theorem mergeAllTransactions_base_events (c : Cache) (regs : List EtherscanTransaction)
    (ins : List EtherscanInternalTransaction) (ts : List EtherscanTokenTransfer)
    (ns : List EtherscanNFTTransfer) (es : List EtherscanERC1155Transfer)
    (i : Nat) (tx : EtherscanTransaction) (hi : regs[i]? = some tx) :
    ∃ r, (mergeAllTransactions c regs ins ts ns es).1[i]? = some r ∧
      r.hash = tx.hash ∧
      (eventsOf r).map eventKey =
        (ts.filter (fun t => t.hash == tx.hash)).map erc20Key ++
        (ns.filter (fun t => t.hash == tx.hash)).map nftKey ++
        (es.filter (fun t => t.hash == tx.hash)).map erc1155Key := by
  obtain ⟨hlen, -⟩ := List.getElem?_eq_some.mp hi
  obtain ⟨c2, hget⟩ := convertRegulars_getElem c (groupTransfers ts ns es) regs i tx hi
  have hlen2 : ((convertRegulars c (groupTransfers ts ns es) regs).1).length = regs.length := by
    have hmh := convertRegulars_map_hash c (groupTransfers ts ns es) regs
    have := congrArg List.length hmh
    simpa using this
  refine ⟨(convertRegularTransaction c2 tx
    (groupLookup (groupTransfers ts ns es) tx.hash)).1, ?_, rfl, ?_⟩
  · show ((convertRegulars c (groupTransfers ts ns es) regs).1 ++
      (convertInternals (regs.map (fun t => t.hash)) ins).1 ++
      (convertOrphans (convertRegulars c (groupTransfers ts ns es) regs).2
        (convertInternals (regs.map (fun t => t.hash)) ins).2
        (groupTransfers ts ns es)).1)[i]? = _
    rw [List.append_assoc, List.getElem?_append_left (by rw [hlen2]; exact hlen)]
    exact hget
  · rw [eventsOf_convertRegular]
    cases hlk : groupLookup (groupTransfers ts ns es) tx.hash with
    | none =>
      have hnot : tx.hash ∉ groupKeys (groupTransfers ts ns es) := by
        rw [← groupLookup_isSome_iff]
        simp [hlk]
      rw [mem_groupKeys_groupTransfers] at hnot
      push_neg at hnot
      obtain ⟨h1, h2, h3⟩ := hnot
      have f1 : ts.filter (fun t => t.hash == tx.hash) = [] := by
        rw [List.filter_eq_nil_iff]
        intro t ht
        simp only [beq_iff_eq]
        intro he
        exact h1 (by rw [← he]; exact List.mem_map_of_mem _ ht)
      have f2 : ns.filter (fun t => t.hash == tx.hash) = [] := by
        rw [List.filter_eq_nil_iff]
        intro t ht
        simp only [beq_iff_eq]
        intro he
        exact h2 (by rw [← he]; exact List.mem_map_of_mem _ ht)
      have f3 : es.filter (fun t => t.hash == tx.hash) = [] := by
        rw [List.filter_eq_nil_iff]
        intro t ht
        simp only [beq_iff_eq]
        intro he
        exact h3 (by rw [← he]; exact List.mem_map_of_mem _ ht)
      simp [f1, f2, f3]
    | some g =>
      have hgb : g = bucketOf ts ns es tx.hash := by
        have hD := groupLookupD_groupTransfers ts ns es tx.hash
        rw [hlk] at hD
        simpa using hD
      rw [hgb]
      rw [show (match some (bucketOf ts ns es tx.hash) with
            | some g => (buildTokenEvents c2 g).1
            | none => ([] : List TxEvent)) = (buildTokenEvents c2 (bucketOf ts ns es tx.hash)).1
          from rfl]
      rw [buildTokenEvents_keys]
      rfl

/-! Claim C1. -/

/-- C1 (amended): provided the regular transaction records have pairwise
distinct hashes, the merged output contains no two records with the same hash
(the cross-record-type deduplication via the processed-hash set, the bucket
keys being distinct, and the orphan guard give uniqueness of everything
else). -/
theorem mergeAllTransactions_nodup_hashes (c : Cache) (regs : List EtherscanTransaction)
    (ins : List EtherscanInternalTransaction) (ts : List EtherscanTokenTransfer)
    (ns : List EtherscanNFTTransfer) (es : List EtherscanERC1155Transfer)
    (h : (regs.map (fun t => t.hash)).Nodup) :
    (((mergeAllTransactions c regs ins ts ns es).1).map (fun r => r.hash)).Nodup := by
  show ((((convertRegulars c (groupTransfers ts ns es) regs).1 ++
      (convertInternals (regs.map (fun t => t.hash)) ins).1 ++
      (convertOrphans (convertRegulars c (groupTransfers ts ns es) regs).2
        (convertInternals (regs.map (fun t => t.hash)) ins).2
        (groupTransfers ts ns es)).1)).map (fun r => r.hash)).Nodup
  rw [List.append_assoc]
  simp only [List.map_append]
  obtain ⟨hindn, hinds⟩ := convertInternals_hashes (regs.map (fun t => t.hash)) ins
  obtain ⟨horn, hors⟩ := convertOrphans_hashes
    (convertRegulars c (groupTransfers ts ns es) regs).2
    (convertInternals (regs.map (fun t => t.hash)) ins).2
    (groupTransfers ts ns es) (groupKeys_groupTransfers_nodup ts ns es)
  rw [List.nodup_append, convertRegulars_map_hash]
  refine ⟨h, ?_, ?_⟩
  · rw [List.nodup_append]
    refine ⟨hindn, horn, ?_⟩
    intro k hkint hkorph
    have horph := hors k hkorph
    exact horph.2 ((convertInternals_mem_processed _ ins k).mpr
      (Or.inr (hinds k hkint).2))
  · intro k hkreg
    rw [List.mem_append]
    rintro (hkint | hkorph)
    · exact (hinds k hkint).1 hkreg
    · exact (hors k hkorph).2
        ((convertInternals_mem_processed _ ins k).mpr (Or.inl hkreg))

/-! Claim C5. -/

/-- C5 (amended): for each orphaned hash (present among transfer records but
matching no regular and no internal record) exactly one canonical record is
synthesized; its block height and timestamp come from the first available
transfer of the bucket — the head of its ERC20 entries, else of its NFT
entries, else of its ERC1155 entries (not from the chronologically earliest
transfer) — and its events are the union of the bucket's entries. -/
theorem mergeAllTransactions_orphan (c : Cache) (regs : List EtherscanTransaction)
    (ins : List EtherscanInternalTransaction) (ts : List EtherscanTokenTransfer)
    (ns : List EtherscanNFTTransfer) (es : List EtherscanERC1155Transfer) (h : String)
    (hocc : h ∈ ts.map (fun t => t.hash) ∨ h ∈ ns.map (fun t => t.hash) ∨
      h ∈ es.map (fun t => t.hash))
    (hreg : h ∉ regs.map (fun t => t.hash)) (hint : h ∉ ins.map (fun t => t.hash)) :
    ∃ r rep,
      ((mergeAllTransactions c regs ins ts ns es).1).filter (fun rc => rc.hash == h) = [r] ∧
      repOf (bucketOf ts ns es h) = some rep ∧
      r.height = (if rep.blockNumber = "" then "0" else rep.blockNumber) ∧
      r.timestamp = rep.timeStamp ∧
      (eventsOf r).map eventKey =
        ((bucketOf ts ns es h).erc20).map erc20Key ++
        ((bucketOf ts ns es h).nft).map nftKey ++
        ((bucketOf ts ns es h).erc1155).map erc1155Key := by
  have hmem : h ∈ groupKeys (groupTransfers ts ns es) :=
    (mem_groupKeys_groupTransfers ts ns es h).mpr hocc
  have hsome : (groupLookup (groupTransfers ts ns es) h).isSome = true :=
    (groupLookup_isSome_iff _ h).mpr hmem
  obtain ⟨g, hg⟩ := Option.isSome_iff_exists.mp hsome
  have hgb : g = bucketOf ts ns es h := by
    have hD := groupLookupD_groupTransfers ts ns es h
    rw [hg] at hD
    simpa using hD
  have hne : (bucketOf ts ns es h).erc20 ≠ [] ∨ (bucketOf ts ns es h).nft ≠ [] ∨
      (bucketOf ts ns es h).erc1155 ≠ [] := by
    rcases hocc with hc | hc | hc
    · obtain ⟨t, ht, hth⟩ := List.mem_map.mp hc
      refine Or.inl (List.ne_nil_of_mem (a := t) ?_)
      rw [bucketOf]
      exact List.mem_filter.mpr ⟨ht, by simp [hth]⟩
    · obtain ⟨t, ht, hth⟩ := List.mem_map.mp hc
      refine Or.inr (Or.inl (List.ne_nil_of_mem (a := t) ?_))
      rw [bucketOf]
      exact List.mem_filter.mpr ⟨ht, by simp [hth]⟩
    · obtain ⟨t, ht, hth⟩ := List.mem_map.mp hc
      refine Or.inr (Or.inr (List.ne_nil_of_mem (a := t) ?_))
      rw [bucketOf]
      exact List.mem_filter.mpr ⟨ht, by simp [hth]⟩
  obtain ⟨rep, hrep⟩ := repOf_isSome _ hne
  have hp : h ∉ (convertInternals (regs.map (fun t => t.hash)) ins).2 := by
    rw [convertInternals_mem_processed]
    rintro (hc | hc)
    · exact hreg hc
    · exact hint hc
  obtain ⟨c2, hfil⟩ := convertOrphans_filter
    (convertInternals (regs.map (fun t => t.hash)) ins).2 h (bucketOf ts ns es h) rep hp hrep
    (groupTransfers ts ns es)
    (convertRegulars c (groupTransfers ts ns es) regs).2
    (groupKeys_groupTransfers_nodup ts ns es) (by rw [hg, hgb])
  refine ⟨(convertTransferToChainTransaction c2 h rep (bucketOf ts ns es h)).1, rep,
    ?_, hrep, rfl, rfl, ?_⟩
  · show ((convertRegulars c (groupTransfers ts ns es) regs).1 ++
      (convertInternals (regs.map (fun t => t.hash)) ins).1 ++
      (convertOrphans (convertRegulars c (groupTransfers ts ns es) regs).2
        (convertInternals (regs.map (fun t => t.hash)) ins).2
        (groupTransfers ts ns es)).1).filter (fun rc => rc.hash == h) = _
    rw [List.filter_append, List.filter_append]
    have freg : ((convertRegulars c (groupTransfers ts ns es) regs).1).filter
        (fun rc => rc.hash == h) = [] := by
      apply filter_hash_eq_nil
      rw [convertRegulars_map_hash]
      exact hreg
    have fint : ((convertInternals (regs.map (fun t => t.hash)) ins).1).filter
        (fun rc => rc.hash == h) = [] := by
      apply filter_hash_eq_nil
      intro hmem2
      exact hint ((convertInternals_hashes _ ins).2 h hmem2).2
    rw [freg, fint, hfil]
    rfl
  · rw [eventsOf_convertTransfer, buildTokenEvents_keys]

/-! Concrete fixtures and witnesses for the normalizer claims. -/

def rtxA : EtherscanTransaction :=
  { blockNumber := "1", timeStamp := "100", hash := "0xa1", from_ := "0xf", to_ := "0xt"
    value := "5", gasPrice := "2", isError := "0", input := "0x", gasUsed := "3" }

def rtxB : EtherscanTransaction :=
  { blockNumber := "2", timeStamp := "200", hash := "0xa2", from_ := "0xf", to_ := "0xt"
    value := "7", gasPrice := "2", isError := "0", input := "0x", gasUsed := "3" }

def rtxDup : EtherscanTransaction :=
  { blockNumber := "3", timeStamp := "300", hash := "0xa1", from_ := "0xf2", to_ := "0xt2"
    value := "9", gasPrice := "2", isError := "0", input := "0x", gasUsed := "3" }

def itxA : EtherscanInternalTransaction :=
  { blockNumber := "1", timeStamp := "100", hash := "0xa1", from_ := "0xf", to_ := "0xt"
    value := "1", contractAddress := "", type := "call", traceId := "0", isError := "0"
    errCode := "" }

def itxB : EtherscanInternalTransaction :=
  { blockNumber := "4", timeStamp := "400", hash := "0xi1", from_ := "0xf", to_ := "0xt"
    value := "1", contractAddress := "", type := "call", traceId := "0", isError := "0"
    errCode := "" }

def ttrA : EtherscanTokenTransfer :=
  { blockNumber := "2", timeStamp := "200", hash := "0xa2", from_ := "0xf"
    contractAddress := "0xc9", to_ := "0xt", value := "11", tokenName := "Tok"
    tokenSymbol := "TOK", tokenDecimal := "18" }

def ttrO1 : EtherscanTokenTransfer :=
  { blockNumber := "9", timeStamp := "200", hash := "0xo1", from_ := "0xf"
    contractAddress := "0xc9", to_ := "0xt", value := "12", tokenName := "Tok"
    tokenSymbol := "TOK", tokenDecimal := "18" }

def ttrO2 : EtherscanTokenTransfer :=
  { blockNumber := "8", timeStamp := "100", hash := "0xo1", from_ := "0xt"
    contractAddress := "0xc9", to_ := "0xf", value := "13", tokenName := "Tok"
    tokenSymbol := "TOK", tokenDecimal := "18" }

/-- Witness for C1 at a concrete input exercising all three passes. -/
theorem mergeAllTransactions_nodup_hashes_witness :
    (((mergeAllTransactions [] [rtxA, rtxB] [itxA, itxB] [ttrA, ttrO1] [] []).1).map
      (fun r => r.hash)).Nodup :=
  mergeAllTransactions_nodup_hashes [] [rtxA, rtxB] [itxA, itxB] [ttrA, ttrO1] [] []
    (by decide)

/-- Counterexample for C1 as stated: when the regular-transaction list itself
contains two records with the same hash (possible across pagination), both
are converted and the merged output carries that hash twice — the regular
pass never consults the processed-hash set. -/
theorem mergeAllTransactions_dup_hash_counterexample :
    ¬ (((mergeAllTransactions [] [rtxA, rtxDup] [] [] [] []).1).map
      (fun r => r.hash)).Nodup := by
  decide

/-- Witness for C3: the record for the base transaction `rtxB` carries
exactly the ERC20 transfer sharing its hash. -/
theorem mergeAllTransactions_base_events_witness :
    ∃ r, (mergeAllTransactions [] [rtxB] [] [ttrA, ttrO1] [] []).1[0]? = some r ∧
      r.hash = rtxB.hash ∧
      (eventsOf r).map eventKey =
        ([ttrA, ttrO1].filter (fun t => t.hash == rtxB.hash)).map erc20Key ++
        (([] : List EtherscanNFTTransfer).filter (fun t => t.hash == rtxB.hash)).map nftKey ++
        (([] : List EtherscanERC1155Transfer).filter
          (fun t => t.hash == rtxB.hash)).map erc1155Key :=
  mergeAllTransactions_base_events [] [rtxB] [] [ttrA, ttrO1] [] [] 0 rtxB rfl

/-- Witness for C5 (amended) at a two-transfer orphaned bucket. -/
theorem mergeAllTransactions_orphan_witness :
    ∃ r rep,
      ((mergeAllTransactions [] [] [] [ttrO1, ttrO2] [] []).1).filter
        (fun rc => rc.hash == "0xo1") = [r] ∧
      repOf (bucketOf [ttrO1, ttrO2] [] [] "0xo1") = some rep ∧
      r.height = (if rep.blockNumber = "" then "0" else rep.blockNumber) ∧
      r.timestamp = rep.timeStamp ∧
      (eventsOf r).map eventKey =
        ((bucketOf [ttrO1, ttrO2] [] [] "0xo1").erc20).map erc20Key ++
        ((bucketOf [ttrO1, ttrO2] [] [] "0xo1").nft).map nftKey ++
        ((bucketOf [ttrO1, ttrO2] [] [] "0xo1").erc1155).map erc1155Key :=
  mergeAllTransactions_orphan [] [] [] [ttrO1, ttrO2] [] [] "0xo1"
    (Or.inl (by decide)) (by decide) (by decide)

/-- Counterexample for C5 as stated: the orphaned bucket for hash "0xo1"
holds transfers at unix seconds 200 (listed first, block 9) and 100 (block
8); the chronologically earliest transfer is the second one, yet the single
synthesized record takes height/timestamp from the first ERC20 entry
(`transfers.erc20[0]`), i.e. 200/9, not from the earliest. -/
theorem mergeAllTransactions_orphan_counterexample :
    ((mergeAllTransactions [] [] [] [ttrO1, ttrO2] [] []).1).map
      (fun r => (r.timestamp, r.height)) = [("200", "9")] ∧
    ttrO1.timeStamp = "200" ∧ ttrO2.timeStamp = "100" ∧
    jsParseInt ttrO2.timeStamp = some 100 ∧ jsParseInt ttrO1.timeStamp = some 200 ∧
    ((100 : Int) < 200) ∧ ¬ (("200" : String) = "100") := by
  decide

/-! Claim C6: cache lemmas. -/

theorem mapLookup_mapSet (c : Cache) (k kq : String) (v : TokenMetadata) :
    mapLookup (mapSet c k v) kq = if k = kq then some v else mapLookup c kq := by
  induction c with
  | nil => simp [mapSet, mapLookup]
  | cons hd tl ih =>
    obtain ⟨k1, v1⟩ := hd
    by_cases h1 : k1 = k
    · subst h1
      simp only [mapSet, if_pos rfl, mapLookup]
      by_cases h2 : k1 = kq
      · subst h2; simp
      · simp [h2, mapLookup, fun h => h2 h]
    · simp only [mapSet, if_neg h1, mapLookup]
      by_cases h2 : k1 = kq
      · subst h2
        have : ¬ k = k1 := fun h => h1 h.symm
        simp [this]
      · simp [h2, ih]

/-- After a resolution, the cache maps the lowercased address to the returned
metadata (both on a cache hit and after a miss stores it). -/
theorem getTokenMetadata_lookup_self (c : Cache) (a s n d : String) :
    mapLookup (getTokenMetadata c a s n d).2 (jsToLower a) =
      some (getTokenMetadata c a s n d).1 := by
  unfold getTokenMetadata
  cases hc : mapLookup c (jsToLower a) with
  | some m => simp [hc]
  | none =>
    cases ht : celoTokenMapGet (jsToLower a) with
    | some sym => simp [hc, ht, mapLookup_mapSet]
    | none => simp [hc, ht, mapLookup_mapSet]

/-- A resolution never disturbs an existing cache entry. -/
theorem getTokenMetadata_preserves (c : Cache) (a s n d k : String) (m : TokenMetadata)
    (h : mapLookup c k = some m) :
    mapLookup (getTokenMetadata c a s n d).2 k = some m := by
  unfold getTokenMetadata
  cases hc : mapLookup c (jsToLower a) with
  | some m1 => simpa [hc] using h
  | none =>
    have hne : ¬ jsToLower a = k := by
      intro he; rw [he] at hc; rw [hc] at h; exact Option.noConfusion h
    cases ht : celoTokenMapGet (jsToLower a) with
    | some sym => simp [hc, ht, mapLookup_mapSet, hne, h]
    | none => simp [hc, ht, mapLookup_mapSet, hne, h]

/-- A resolution of an address already cached returns the cached triple. -/
theorem getTokenMetadata_hit (c : Cache) (a s n d : String) (m : TokenMetadata)
    (h : mapLookup c (jsToLower a) = some m) :
    (getTokenMetadata c a s n d).1 = m := by
  unfold getTokenMetadata
  simp [h]

/-- Unfolding equation of `runMetadataCalls` on a cons cell. -/
theorem runMetadataCalls_cons (c : Cache) (x : MetaCall) (rest : List MetaCall) :
    runMetadataCalls c (x :: rest) =
      ((getTokenMetadata c x.contractAddress x.apiSymbol x.apiName x.apiDecimals).1 ::
         (runMetadataCalls (getTokenMetadata c x.contractAddress x.apiSymbol x.apiName
             x.apiDecimals).2 rest).1,
       (runMetadataCalls (getTokenMetadata c x.contractAddress x.apiSymbol x.apiName
           x.apiDecimals).2 rest).2) := rfl

/-- Every later resolution of an address the cache already binds to `m`
returns exactly `m`. -/
theorem runMetadataCalls_stable (calls : List MetaCall) (c : Cache) (k : String)
    (m : TokenMetadata) (hc : mapLookup c k = some m) :
    ∀ (j : Nat) (a : MetaCall) (r : TokenMetadata), calls[j]? = some a →
      jsToLower a.contractAddress = k →
      (runMetadataCalls c calls).1[j]? = some r → r = m := by
  induction calls generalizing c hc with
  | nil => intro j a r ha; simp at ha
  | cons x rest ih =>
    intro j a r ha hk hr
    rw [runMetadataCalls_cons] at hr
    cases j with
    | zero =>
      simp only [List.getElem?_cons_zero, Option.some.injEq] at ha hr
      subst ha
      rw [← hr]
      exact getTokenMetadata_hit c x.contractAddress x.apiSymbol x.apiName x.apiDecimals m
        (by rw [hk]; exact hc)
    | succ jp =>
      simp only [List.getElem?_cons_succ] at ha hr
      exact ih _ (getTokenMetadata_preserves c x.contractAddress x.apiSymbol x.apiName
        x.apiDecimals k m hc) jp a r ha hk hr

/-! Claim C6. -/

/-- C6: within one session, any two metadata resolutions for the same
contract address (compared lowercased) return the identical
symbol/decimals/name triple — the first resolution's result is cached and
every later occurrence reuses it unchanged. -/
theorem runMetadataCalls_consistent (cache : Cache) (calls : List MetaCall)
    (i j : Nat) (ai aj : MetaCall) (ri rj : TokenMetadata)
    (hij : i < j) (hai : calls[i]? = some ai) (haj : calls[j]? = some aj)
    (haddr : jsToLower ai.contractAddress = jsToLower aj.contractAddress)
    (hri : (runMetadataCalls cache calls).1[i]? = some ri)
    (hrj : (runMetadataCalls cache calls).1[j]? = some rj) :
    rj = ri := by
  induction calls generalizing cache i j with
  | nil => simp at hai
  | cons x rest ih =>
    rw [runMetadataCalls_cons] at hri hrj
    cases j with
    | zero => exact absurd hij (Nat.not_lt_zero i)
    | succ jp =>
      cases i with
      | zero =>
        simp only [List.getElem?_cons_zero, Option.some.injEq] at hai hri
        simp only [List.getElem?_cons_succ] at haj hrj
        have hself := getTokenMetadata_lookup_self cache x.contractAddress x.apiSymbol
          x.apiName x.apiDecimals
        rw [hri] at hself
        refine runMetadataCalls_stable rest _ (jsToLower x.contractAddress) ri hself jp aj rj
          haj ?_ hrj
        rw [← hai] at haddr
        exact haddr.symm
      | succ ip =>
        simp only [List.getElem?_cons_succ] at hai haj hri hrj
        exact ih _ ip jp (Nat.lt_of_succ_lt_succ hij) hai haj hri hrj

/-! Classifier event-loop lemmas (claims C2 and C7). -/

/-- The nested per-log/per-event loop is a fold over the flattened events. -/
theorem logsFoldl_eq_flat (f : ParseState → TxEvent → ParseState) (ls : List TxLog)
    (s : ParseState) :
    ls.foldl (fun (s : ParseState) (lg : TxLog) => lg.events.foldl f s) s =
      (ls.flatMap (fun lg => lg.events)).foldl f s := by
  induction ls generalizing s with
  | nil => rfl
  | cons lg rest ih => simp [List.flatMap_cons, List.foldl_append, ih]

/-- Non-token-transfer events leave the classifier state unchanged. -/
theorem processTokenEvent_skip (fmt : String → Int → Nat → String) (w : String)
    (st : ParseState) (e : TxEvent) (h : isTokenEventType e.type = false) :
    processTokenEvent fmt w st e = st := by
  unfold processTokenEvent
  simp [h]

/-- The event loop only looks at token-transfer-like events. -/
theorem foldl_processTokenEvent_filter (fmt : String → Int → Nat → String) (w : String)
    (evs : List TxEvent) (s : ParseState) :
    evs.foldl (processTokenEvent fmt w) s =
      (evs.filter (fun e => isTokenEventType e.type)).foldl (processTokenEvent fmt w) s := by
  induction evs generalizing s with
  | nil => rfl
  | cons e rest ih =>
    cases h : isTokenEventType e.type with
    | true => simp [List.filter_cons, h, ih]
    | false => simp [List.filter_cons, h, processTokenEvent_skip fmt w s e h, ih]

/-- The whole log traversal of the classifier is a fold over
`tokenEventsOf tx`. -/
theorem runEventLoop_eq (fmt : String → Int → Nat → String) (w : String)
    (tx : ChainTransaction) (s : ParseState) :
    runEventLoop fmt w tx.logs s = (tokenEventsOf tx).foldl (processTokenEvent fmt w) s := by
  cases hlg : tx.logs with
  | none => simp [runEventLoop, tokenEventsOf, eventsOf, hlg]
  | some ls =>
    have hstep : runEventLoop fmt w (some ls) s =
        ls.foldl
          (fun (s : ParseState) (lg : TxLog) =>
            lg.events.foldl (processTokenEvent fmt w) s) s := rfl
    rw [hstep, logsFoldl_eq_flat, foldl_processTokenEvent_filter]
    simp [tokenEventsOf, eventsOf, hlg]

/-- When the primary message carries no nonzero native amount, step 2 leaves
the state unchanged. -/
theorem nativeStep_unset (fmt : String → Int → Nat → String) (w : String) (m : Message)
    (st : ParseState) (h : nativeAmountUnset m) : nativeStep fmt w m st = st := by
  unfold nativeStep
  unfold nativeAmountUnset at h
  cases hma : m.amount with
  | none => rfl
  | some l =>
    cases l with
    | nil => rfl
    | cons coin rest =>
      rw [hma] at h
      have : ¬ (coin.amount ≠ "" ∧ coin.amount ≠ "0") := by
        rcases h with h | h <;> simp [h]
      simp [this]

/-- Effect of the first token event when no native amount was set: it becomes
the primary leg and fixes the direction. -/
theorem processTokenEvent_first (fmt : String → Int → Nat → String) (w : String)
    (st : ParseState) (e : TxEvent) (he : isTokenEventType e.type = true)
    (h0 : st.tokenTransfers = []) (ha : st.amount = "" ∨ st.amount = "0") :
    processTokenEvent fmt w st e =
      { st with
        amount := eventFormattedAmount fmt e
        currency := eventSymbol e
        from_ := eventFrom e
        to_ := eventTo e
        type := if jsToLower (eventFrom e) = w then "send"
          else if jsToLower (eventTo e) = w then "receive" else "unknown"
        tokenTransfers := [⟨eventSymbol e, eventFormattedAmount fmt e, eventFrom e,
          eventTo e, eventTokenType e⟩] } := by
  unfold processTokenEvent
  rcases ha with ha | ha <;>
    simp [he, h0, ha, eventSymbol, eventTokenType, eventFrom, eventTo]

/-- Effect of the second token event when the directions of the two legs are
opposite relative to the wallet: it becomes the secondary leg and the type is
upgraded to `swap`. -/
theorem processTokenEvent_second_swap (fmt : String → Int → Nat → String) (w : String)
    (st : ParseState) (e : TxEvent) (t1 : TokenTransferInfo)
    (he : isTokenEventType e.type = true) (h1 : st.tokenTransfers = [t1])
    (h2 : st.amount2 = "")
    (hdir : (jsToLower t1.from_ = w ∧ jsToLower (eventTo e) = w) ∨
            (jsToLower (eventFrom e) = w ∧ jsToLower t1.to_ = w)) :
    processTokenEvent fmt w st e =
      { st with
        type := "swap"
        amount2 := eventFormattedAmount fmt e
        currency2 := eventSymbol e
        tokenTransfers := [t1, ⟨eventSymbol e, eventFormattedAmount fmt e, eventFrom e,
          eventTo e, eventTokenType e⟩] } := by
  have hcond : (jsToLower t1.from_ = w ∧ jsToLower (attrOr e.attributes "to" "") = w) ∨
      (jsToLower (attrOr e.attributes "from" "") = w ∧ jsToLower t1.to_ = w) := by
    simpa [eventFrom, eventTo] using hdir
  unfold processTokenEvent
  simp [he, h1, h2, hcond, eventSymbol, eventTokenType, eventFrom, eventTo]

/-! Claim C2. -/

/-- C2: a canonical transaction with no nonzero native amount whose events
hold exactly two token-transfer events with opposite directions relative to
the queried wallet (first leg out of the wallet and second leg into it, or
vice versa) classifies as a swap whose amount/currency come from the first
event and whose amount2/currency2 come from the second. -/
theorem parseTransaction_two_leg_swap (fmt : String → Int → Nat → String)
    (tx : ChainTransaction) (w : String) (m : Message) (e1 e2 : TxEvent)
    (hmsg : tx.txc.body.messages.head? = some m)
    (hnat : nativeAmountUnset m)
    (hevs : tokenEventsOf tx = [e1, e2])
    (hdir : (jsToLower (eventFrom e1) = jsToLower w ∧ jsToLower (eventTo e2) = jsToLower w) ∨
            (jsToLower (eventTo e1) = jsToLower w ∧ jsToLower (eventFrom e2) = jsToLower w)) :
    (parseTransaction fmt tx w).type = "swap" ∧
    (parseTransaction fmt tx w).amount = eventFormattedAmount fmt e1 ∧
    (parseTransaction fmt tx w).currency = eventSymbol e1 ∧
    (parseTransaction fmt tx w).amount2 = eventFormattedAmount fmt e2 ∧
    (parseTransaction fmt tx w).currency2 = eventSymbol e2 := by
  have he1 : isTokenEventType e1.type = true := by
    have : e1 ∈ tokenEventsOf tx := by rw [hevs]; exact List.mem_cons_self _ _
    exact (List.mem_filter.mp this).2
  have he2 : isTokenEventType e2.type = true := by
    have : e2 ∈ tokenEventsOf tx := by
      rw [hevs]; exact List.mem_cons_of_mem _ (List.mem_cons_self _ _)
    exact (List.mem_filter.mp this).2
  obtain ⟨ms, hl⟩ : ∃ ms, tx.txc.body.messages = m :: ms := by
    cases hl : tx.txc.body.messages with
    | nil => rw [hl] at hmsg; exact absurd hmsg (by simp)
    | cons m0 ms =>
      rw [hl] at hmsg
      simp only [List.head?_cons, Option.some.injEq] at hmsg
      exact ⟨ms, by rw [hmsg]⟩
  have hst : classifyState fmt tx w =
      { type := "swap"
        from_ := eventFrom e1
        to_ := eventTo e1
        amount := eventFormattedAmount fmt e1
        currency := eventSymbol e1
        amount2 := eventFormattedAmount fmt e2
        currency2 := eventSymbol e2
        tokenTransfers :=
          [⟨eventSymbol e1, eventFormattedAmount fmt e1, eventFrom e1, eventTo e1,
            eventTokenType e1⟩,
           ⟨eventSymbol e2, eventFormattedAmount fmt e2, eventFrom e2, eventTo e2,
            eventTokenType e2⟩] } := by
    unfold classifyState
    rw [hl]
    simp only [List.head?_cons]
    rw [nativeStep_unset fmt (jsToLower w) m _ hnat]
    rw [runEventLoop_eq fmt (jsToLower w) tx]
    rw [hevs]
    simp only [List.foldl_cons, List.foldl_nil]
    rw [processTokenEvent_first fmt (jsToLower w) _ e1 he1 rfl (Or.inl rfl)]
    rw [processTokenEvent_second_swap fmt (jsToLower w) _ e2
      ⟨eventSymbol e1, eventFormattedAmount fmt e1, eventFrom e1, eventTo e1,
        eventTokenType e1⟩ he2 rfl rfl ?_]
    · simp
    · rcases hdir with ⟨h1, h2⟩ | ⟨h1, h2⟩
      · exact Or.inl ⟨h1, h2⟩
      · exact Or.inr ⟨h2, h1⟩
  have hty : (parseTransaction fmt tx w).type = (classifyState fmt tx w).type := rfl
  have ham : (parseTransaction fmt tx w).amount = (classifyState fmt tx w).amount := rfl
  have hcu : (parseTransaction fmt tx w).currency = (classifyState fmt tx w).currency := rfl
  have ham2 : (parseTransaction fmt tx w).amount2 = (classifyState fmt tx w).amount2 := rfl
  have hcu2 : (parseTransaction fmt tx w).currency2 = (classifyState fmt tx w).currency2 := rfl
  rw [hty, ham, hcu, ham2, hcu2, hst]
  exact ⟨rfl, rfl, rfl, rfl, rfl⟩

def c2ev1 : TxEvent :=
  { type := "token_transfer"
    attributes := [⟨"sender_address", "0xc1"⟩, ⟨"token_symbol", "USDC"⟩,
                   ⟨"token_name", "USD Coin"⟩, ⟨"decimals", "6"⟩, ⟨"value", "1000000"⟩,
                   ⟨"from", "0xW"⟩, ⟨"to", "0xY"⟩, ⟨"token_type", "ERC20"⟩] }

def c2ev2 : TxEvent :=
  { type := "token_transfer"
    attributes := [⟨"sender_address", "0xc2"⟩, ⟨"token_symbol", "ETH"⟩,
                   ⟨"token_name", "Ether"⟩, ⟨"decimals", "18"⟩,
                   ⟨"value", "2000000000000000000"⟩, ⟨"from", "0xY"⟩, ⟨"to", "0xW"⟩,
                   ⟨"token_type", "ERC20"⟩] }

def c2msg : Message :=
  { atType := msgSendType, from_address := some "0xW", to_address := some "0xZ"
    amount := some [⟨"wei", "0"⟩] }

def c2tx : ChainTransaction :=
  { hash := "0xswaphash", height := "7", timestamp := "1700000002", code := 0, chain := "celo"
    logs := some [⟨0, "Token transfers", [c2ev1, c2ev2]⟩]
    txc := { body := { messages := [c2msg], memo := some "" }
             auth_info := { fee := some { amount := some [⟨"wei", "21000"⟩] } } } }

def c2fmt : String → Int → Nat → String :=
  fun v e d => v ++ "@" ++ toString e ++ "." ++ toString d

/-- Witness for C2 at the spec's USDC/ETH two-leg scenario. -/
theorem parseTransaction_two_leg_swap_witness :
    (parseTransaction c2fmt c2tx "0xw").type = "swap" ∧
    (parseTransaction c2fmt c2tx "0xw").amount = eventFormattedAmount c2fmt c2ev1 ∧
    (parseTransaction c2fmt c2tx "0xw").currency = eventSymbol c2ev1 ∧
    (parseTransaction c2fmt c2tx "0xw").amount2 = eventFormattedAmount c2fmt c2ev2 ∧
    (parseTransaction c2fmt c2tx "0xw").currency2 = eventSymbol c2ev2 :=
  parseTransaction_two_leg_swap c2fmt c2tx "0xw" c2msg c2ev1 c2ev2 rfl (Or.inr rfl)
    (by decide) (Or.inl ⟨by decide, by decide⟩)

/-! Claim C7. -/

/-- The default exponent 18 is used whenever the decimals attribute is
missing. -/
theorem effectiveExp_of_none (attrs : List Attribute)
    (h : attrLast attrs "decimals" = none) : effectiveExp attrs = 18 := by
  unfold effectiveExp attrOr
  rw [h]
  rfl

/-- C7: the classifier is total and degrades missing data to defaults: with no
messages every primary field keeps its default; a missing or empty fee list
yields an empty fee; an unparsable height renders as 0; and a fungible token
event with no decimals attribute is converted with the default exponent 18. -/
theorem parseTransaction_total_defaults (fmt : String → Int → Nat → String)
    (tx : ChainTransaction) (w : String) :
    (tx.txc.body.messages = [] →
       (parseTransaction fmt tx w).type = "unknown" ∧
       (parseTransaction fmt tx w).from_ = "" ∧
       (parseTransaction fmt tx w).to_ = "" ∧
       (parseTransaction fmt tx w).amount = "" ∧
       (parseTransaction fmt tx w).currency = "CELO" ∧
       (parseTransaction fmt tx w).amount2 = "" ∧
       (parseTransaction fmt tx w).currency2 = "") ∧
    (tx.txc.auth_info.fee.bind (fun f => f.amount) = none ∨
       tx.txc.auth_info.fee.bind (fun f => f.amount) = some ([] : List Coin) →
       (parseTransaction fmt tx w).fee = "") ∧
    (tx.height = "" → (parseTransaction fmt tx w).height = 0) ∧
    (∀ (m : Message) (e : TxEvent),
       tx.txc.body.messages.head? = some m → nativeAmountUnset m →
       tokenEventsOf tx = [e] → eventTokenType e ≠ "ERC721" →
       attrLast e.attributes "decimals" = none →
       (parseTransaction fmt tx w).amount = fmt (eventValue e) 18 6) := by
  refine ⟨?_, ?_, ?_, ?_⟩
  · intro hm
    have hcs : classifyState fmt tx w =
        { type := "unknown", from_ := "", to_ := "", amount := "", currency := "CELO"
          amount2 := "", currency2 := "", tokenTransfers := [] } := by
      unfold classifyState
      rw [hm]
      rfl
    have hty : (parseTransaction fmt tx w).type = (classifyState fmt tx w).type := rfl
    have hfr : (parseTransaction fmt tx w).from_ = (classifyState fmt tx w).from_ := rfl
    have hto : (parseTransaction fmt tx w).to_ = (classifyState fmt tx w).to_ := rfl
    have ham : (parseTransaction fmt tx w).amount = (classifyState fmt tx w).amount := rfl
    have hcu : (parseTransaction fmt tx w).currency = (classifyState fmt tx w).currency := rfl
    have ham2 : (parseTransaction fmt tx w).amount2 = (classifyState fmt tx w).amount2 := rfl
    have hcu2 : (parseTransaction fmt tx w).currency2 = (classifyState fmt tx w).currency2 := rfl
    rw [hty, hfr, hto, ham, hcu, ham2, hcu2, hcs]
    exact ⟨rfl, rfl, rfl, rfl, rfl, rfl, rfl⟩
  · intro hfee
    have hfe : (parseTransaction fmt tx w).fee =
        (match tx.txc.auth_info.fee.bind (fun f => f.amount) with
          | some (coin :: _) =>
            if coin.amount ≠ "" ∧ coin.amount ≠ "0" then fmt coin.amount 18 8 else ""
          | _ => "") := rfl
    rcases hfee with h | h <;> rw [hfe, h]
  · intro hh
    have : (parseTransaction fmt tx w).height = (jsParseIntRadix10 tx.height).getD 0 := rfl
    rw [this, hh]
    rfl
  · intro m e hmsg hnat hevs htt hdec
    have he : isTokenEventType e.type = true := by
      have : e ∈ tokenEventsOf tx := by rw [hevs]; exact List.mem_cons_self _ _
      exact (List.mem_filter.mp this).2
    obtain ⟨ms, hl⟩ : ∃ ms, tx.txc.body.messages = m :: ms := by
      cases hl : tx.txc.body.messages with
      | nil => rw [hl] at hmsg; exact absurd hmsg (by simp)
      | cons m0 ms =>
        rw [hl] at hmsg
        simp only [List.head?_cons, Option.some.injEq] at hmsg
        exact ⟨ms, by rw [hmsg]⟩
    have hform : eventFormattedAmount fmt e = fmt (eventValue e) 18 6 := by
      unfold eventFormattedAmount
      rw [effectiveExp_of_none e.attributes hdec]
      unfold eventTokenType at htt
      simp [htt, eventValue]
    have hcs : (classifyState fmt tx w).amount = eventFormattedAmount fmt e := by
      unfold classifyState
      rw [hl]
      simp only [List.head?_cons]
      rw [nativeStep_unset fmt (jsToLower w) m _ hnat]
      rw [runEventLoop_eq fmt (jsToLower w) tx]
      rw [hevs]
      simp only [List.foldl_cons, List.foldl_nil]
      rw [processTokenEvent_first fmt (jsToLower w) _ e he rfl (Or.inl rfl)]
      rw [apply_ite ParseState.amount]
      simp
    have ham : (parseTransaction fmt tx w).amount = (classifyState fmt tx w).amount := rfl
    rw [ham, hcs, hform]

def c7txEmpty : ChainTransaction :=
  { hash := "0xempty", height := "", timestamp := "1700000003", code := 0, chain := "celo"
    logs := none
    txc := { body := { messages := [], memo := none }
             auth_info := { fee := some { amount := some [] } } } }

def c7ev : TxEvent :=
  { type := "token_transfer"
    attributes := [⟨"sender_address", "0xc3"⟩, ⟨"token_symbol", "TOK"⟩,
                   ⟨"value", "5000"⟩, ⟨"from", "0xW"⟩, ⟨"to", "0xY"⟩,
                   ⟨"token_type", "ERC20"⟩] }

def c7msg : Message :=
  { atType := msgSendType, from_address := some "0xW", to_address := some "0xY"
    amount := some [⟨"wei", "0"⟩] }

def c7txTok : ChainTransaction :=
  { hash := "0xtok", height := "3", timestamp := "1700000004", code := 0, chain := "celo"
    logs := some [⟨0, "Token transfers", [c7ev]⟩]
    txc := { body := { messages := [c7msg], memo := some "" }
             auth_info := { fee := none } } }

/-- Witness for C7: a record with no messages, an empty fee list and an
unparsable height degrades to the defaults, and a token event without a
decimals attribute converts with exponent 18. -/
theorem parseTransaction_total_defaults_witness :
    ((parseTransaction c2fmt c7txEmpty "0xw").type = "unknown" ∧
     (parseTransaction c2fmt c7txEmpty "0xw").from_ = "" ∧
     (parseTransaction c2fmt c7txEmpty "0xw").to_ = "" ∧
     (parseTransaction c2fmt c7txEmpty "0xw").amount = "" ∧
     (parseTransaction c2fmt c7txEmpty "0xw").currency = "CELO" ∧
     (parseTransaction c2fmt c7txEmpty "0xw").amount2 = "" ∧
     (parseTransaction c2fmt c7txEmpty "0xw").currency2 = "") ∧
    (parseTransaction c2fmt c7txEmpty "0xw").fee = "" ∧
    (parseTransaction c2fmt c7txEmpty "0xw").height = 0 ∧
    (parseTransaction c2fmt c7txTok "0xw").amount = c2fmt (eventValue c7ev) 18 6 :=
  ⟨(parseTransaction_total_defaults c2fmt c7txEmpty "0xw").1 rfl,
   (parseTransaction_total_defaults c2fmt c7txEmpty "0xw").2.1 (Or.inr rfl),
   (parseTransaction_total_defaults c2fmt c7txEmpty "0xw").2.2.1 rfl,
   (parseTransaction_total_defaults c2fmt c7txTok "0xw").2.2.2 c7msg c7ev rfl (Or.inr rfl)
     (by decide) (by decide) (by decide)⟩

def c6calls : List MetaCall :=
  [⟨"0xAB", "FOO", "Foo Token", "6"⟩, ⟨"0xab", "BAR", "Bar Token", "9"⟩]

/-- Witness for C6: two resolutions of the same address (differing only in
case and API-provided data) return the same triple. -/
theorem runMetadataCalls_consistent_witness :
    (runMetadataCalls [] c6calls).1[0]? = some ⟨"FOO", 6, "Foo Token"⟩ ∧
    (runMetadataCalls [] c6calls).1[1]? = some ⟨"FOO", 6, "Foo Token"⟩ ∧
    (⟨"FOO", 6, "Foo Token"⟩ : TokenMetadata) = ⟨"FOO", 6, "Foo Token"⟩ :=
  ⟨by decide, by decide,
   runMetadataCalls_consistent [] c6calls 0 1 ⟨"0xAB", "FOO", "Foo Token", "6"⟩
     ⟨"0xab", "BAR", "Bar Token", "9"⟩ ⟨"FOO", 6, "Foo Token"⟩ ⟨"FOO", 6, "Foo Token"⟩
     (by decide) (by decide) (by decide) (by decide) (by decide) (by decide)⟩

end CeloTax
